import Mathlib

/-!
# Verification of the Indonesia–China finance ETL pipeline

A shallow embedding, in Lean 4, of the extraction/normalization pipeline in
`src/etl.py` of the `indonesia-china-finance-dashboard` repository, together
with theorems settling the frozen claims about that pipeline.

Modelling conventions:

* pandas `Series` values become `List (Option α)`; a missing value (`pd.NA` /
  `NaN` / `NaT`) is `none`.
* a raw spreadsheet/CSV table (`pd.DataFrame`) becomes a `RawFrame`: a list of
  column names plus a list of rows, each row a list of optional string cells
  aligned with the column list.  All frames produced by the repository's
  readers have whitespace-stripped column names, which this model assumes.
* machine floats become `Rat`; calendar timestamps become `EtlDate`
  (year/month/day; the pipeline only ever stores day-precision dates, so the
  time-of-day component of a fractional Excel serial is dropped, and the
  nanosecond range limits of pandas timestamps are not modelled).
* library calls that parse text (`pd.to_datetime` on strings, `pd.to_numeric`)
  are modelled by executable parsers covering the formats the pipeline relies
  on: ISO `YYYY-MM-DD` calendar dates and signed decimal/exponent numerals.
* file access is modelled by passing the read outcome of every discovered file
  (a parsed `RawFrame` plus a parser-description string, or an error message)
  to the orchestrator, so the exception-handling structure of `run_etl` is
  represented by explicit `Except` case analysis.
* the mapping-audit rows and the methodology document are write-only audit
  artifacts with no consumer in the claims and are not modelled; neither is
  the wall-clock generation timestamp of the quality report.
-/

/-! ## Option and list helpers -/

/-- `a.combine_first(b)` at a single cell: keep `a` unless it is null. -/
def orElseO {α : Type} (a b : Option α) : Option α :=
  match a with
  | some v => some v
  | none => b

/-- Substring test on character lists: `pat` occurs contiguously in `hay`
(the semantics of Python's `in` on strings). -/
def containsChars (pat : List Char) : List Char → Bool
  | [] => pat.isEmpty
  | c :: rest => pat.isPrefixOf (c :: rest) || containsChars pat rest

/-- `pat in hay` for strings (Python's containment operator). -/
def containsStr (hay pat : String) : Bool :=
  containsChars pat.data hay.data

/-- A regex word character (`\w` over ASCII): letter, digit or underscore. -/
def wordChar (c : Char) : Bool :=
  c.isAlphanum || c == '_'

/-- `\b` holds before the current position given the previous character. -/
def boundaryBefore : Option Char → Bool
  | none => true
  | some p => !wordChar p

/-- `\b` holds after a match given the remaining characters. -/
def boundaryAfter : List Char → Bool
  | [] => true
  | c :: _ => !wordChar c

/-- Scan for `\b<needle>\b`: `prev` is the character before the current
position (`none` at the start of the string). -/
def containsWordAux (needle : List Char) (prev : Option Char) : List Char → Bool
  | [] => false
  | c :: rest =>
    (boundaryBefore prev && needle.isPrefixOf (c :: rest)
      && boundaryAfter (List.drop needle.length (c :: rest)))
    || containsWordAux needle (some c) rest

/-- `re.search(r"\b<needle>\b", hay)` for a needle made of word characters. -/
def containsWord (needle hay : String) : Bool :=
  containsWordAux needle.data none hay.data

/-- Strip leading and trailing whitespace from a character list. -/
def trimChars (cs : List Char) : List Char :=
  ((cs.dropWhile Char.isWhitespace).reverse.dropWhile Char.isWhitespace).reverse

/-- Python's `str.strip()`. -/
def strTrim (s : String) : String :=
  String.mk (trimChars s.data)

/-- Python's `str.lower()` (ASCII case mapping). -/
def strLower (s : String) : String :=
  String.mk (s.data.map Char.toLower)

/-- Python's `str.upper()` (ASCII case mapping). -/
def strUpper (s : String) : String :=
  String.mk (s.data.map Char.toUpper)

/-- `_normalize_column_name`: lowercase and strip all non-alphanumerics
(the repository's normalizer keeps only `[a-z0-9]`). -/
def normalizeColumnName (s : String) : String :=
  String.mk ((s.data.map Char.toLower).filter
    (fun c => ('a' ≤ c && c ≤ 'z') || ('0' ≤ c && c ≤ '9')))

/-- `.str.strip()` with empty strings coerced to null, the finalization rule
for text fields. -/
def trimToNull (o : Option String) : Option String :=
  o.bind (fun s => let t := strTrim s; if t = "" then none else some t)

/-! ## Numeric parsing (`pd.to_numeric(errors="coerce")`) -/

/-- Digit list to value, `none` on empty input. -/
def digitsVal : List Char → Option Nat
  | [] => none
  | cs =>
    if cs.all Char.isDigit then
      some (cs.foldl (fun acc c => 10 * acc + (c.toNat - '0'.toNat)) 0)
    else none

/-- Split a character list at the first occurrence of `sep`. -/
def splitAtChar (sep : Char) (cs : List Char) : List Char × Option (List Char) :=
  match cs with
  | [] => ([], none)
  | c :: rest =>
    if c == sep then ([], some rest)
    else
      let (pre, post) := splitAtChar sep rest
      (c :: pre, post)

/-- Parse an unsigned decimal mantissa `digits[.digits]` as a rational. -/
def parseMantissa (cs : List Char) : Option Rat :=
  let (intPart, fracPart) := splitAtChar '.' cs
  match fracPart with
  | none => (digitsVal intPart).map (fun n => (n : Rat))
  | some frac =>
    if intPart.isEmpty && frac.isEmpty then none
    else if intPart.all Char.isDigit && frac.all Char.isDigit then
      some ((intPart ++ frac).foldl (fun acc c => 10 * acc + ((c.toNat - '0'.toNat : Nat) : Rat)) 0
        / (10 : Rat) ^ frac.length)
    else none

/-- Parse an optional sign followed by `k`, returning the signed result. -/
def parseSigned (k : List Char → Option Rat) (cs : List Char) : Option Rat :=
  match cs with
  | '+' :: rest => k rest
  | '-' :: rest => (k rest).map Neg.neg
  | _ => k cs

/-- Model of `pd.to_numeric(errors="coerce")` on a single trimmed string:
signed decimal numerals with optional fraction and optional exponent. -/
def parseRat (s : String) : Option Rat :=
  let cs := trimChars s.data
  let withExp : List Char → Option Rat := fun body =>
    let (mant, expPart) := splitAtChar 'e' body
    match expPart with
    | none =>
      let (mant2, expPart2) := splitAtChar 'E' body
      match expPart2 with
      | none => parseMantissa body
      | some ex => do
        let m ← parseMantissa mant2
        let e ← parseSigned (fun d => (digitsVal d).map (fun n => (n : Rat))) ex
        if e.den = 1 then
          some (if e.num ≥ 0 then m * (10 : Rat) ^ e.num.toNat else m / (10 : Rat) ^ (-e.num).toNat)
        else none
    | some ex => do
      let m ← parseMantissa mant
      let e ← parseSigned (fun d => (digitsVal d).map (fun n => (n : Rat))) ex
      if e.den = 1 then
        some (if e.num ≥ 0 then m * (10 : Rat) ^ e.num.toNat else m / (10 : Rat) ^ (-e.num).toNat)
      else none
  if cs.isEmpty then none else parseSigned withExp cs

/-! ## Calendar dates -/

/-- A day-precision calendar date (the only precision the pipeline persists). -/
structure EtlDate where
  year : Int
  month : Int
  day : Int
deriving DecidableEq, Repr

/-- Civil-from-days conversion: the proleptic Gregorian date that is `z` days
after 1970-01-01 (Euclidean division on `Int` gives the floor semantics the
standard algorithm requires). -/
def civilFromDays (z0 : Int) : EtlDate :=
  let z := z0 + 719468
  let era := z.ediv 146097
  let doe := z.emod 146097
  let yoe := (doe - doe.ediv 1460 + doe.ediv 36524 - doe.ediv 146096).ediv 365
  let y := yoe + era * 400
  let doy := doe - (365 * yoe + yoe.ediv 4 - yoe.ediv 100)
  let mp := (5 * doy + 2).ediv 153
  let d := doy - (153 * mp + 2).ediv 5 + 1
  let m := mp + (if mp < 10 then 3 else -9)
  { year := y + (if m ≤ 2 then 1 else 0), month := m, day := d }

/-- Days in a month of the proleptic Gregorian calendar. -/
def daysInMonth (y m : Int) : Int :=
  if m = 2 then
    (if y.emod 4 = 0 && (y.emod 100 ≠ 0 || y.emod 400 = 0) then 29 else 28)
  else if m = 4 || m = 6 || m = 9 || m = 11 then 30
  else 31

/-- Model of `pd.to_datetime` on a single trimmed text value, restricted to
the ISO `YYYY-MM-DD` layout the pipeline's sources rely on (other text
layouts and out-of-range timestamps coerce to null, which this model
conservatively folds into the `none` result). -/
def parseIsoDate (s : String) : Option EtlDate :=
  let sp1 := splitAtChar '-' s.data
  match sp1.2 with
  | none => none
  | some r1 =>
    let sp2 := splitAtChar '-' r1
    match sp2.2 with
    | none => none
    | some ds =>
      if ds.contains '-' then none
      else
        match digitsVal sp1.1, digitsVal sp2.1, digitsVal ds with
        | some y, some m, some d =>
          if sp1.1.length = 4 && 1 ≤ m && m ≤ 12 && 1 ≤ d && (d : Int) ≤ daysInMonth y m then
            some { year := y, month := m, day := d }
          else none
        | _, _, _ => none

/-- Offset of the 1899-12-30 spreadsheet-serial epoch from 1970-01-01. -/
def excelEpochOffset : Int := -25569

/-- Serial-number date parsing: `pd.to_datetime(value, unit="D",
origin="1899-12-30")` at day precision. -/
def parseExcelSerial (s : String) : Option EtlDate :=
  (parseRat s).map (fun r => civilFromDays (excelEpochOffset + r.floor))

/-- `parse_date_any` on a single cell: strip, treat the empty string as null,
try calendar-date parsing of the text, and fill failures from
spreadsheet-serial parsing (`parsed.fillna(parsed_excel_serial)`). -/
def parseDateAny (s : String) : Option EtlDate :=
  let t := strTrim s
  if t = "" then none
  else orElseO (parseIsoDate t) (parseExcelSerial t)

/-! ## SHA-1 (`hashlib.sha1`) -/

/-- Reduce modulo `2^32`. -/
def w32 (n : Nat) : Nat := n % 4294967296

/-- Left-rotate a 32-bit word by `k` bits. -/
def rotl32 (k n : Nat) : Nat :=
  w32 (n <<< k) ||| (w32 n >>> (32 - k))

/-- UTF-8 encoding of one code point. -/
def utf8EncodeChar (c : Char) : List Nat :=
  let n := c.toNat
  if n < 128 then [n]
  else if n < 2048 then [192 + n / 64, 128 + n % 64]
  else if n < 65536 then [224 + n / 4096, 128 + (n / 64) % 64, 128 + n % 64]
  else [240 + n / 262144, 128 + (n / 4096) % 64, 128 + (n / 64) % 64, 128 + n % 64]

/-- `str.encode("utf-8")` as a byte list. -/
def utf8Encode (s : String) : List Nat :=
  (s.data.map utf8EncodeChar).flatten

/-- Big-endian bytes of `n`, `width` bytes wide. -/
def beBytes (width n : Nat) : List Nat :=
  (List.range width).map (fun i => (n >>> (8 * (width - 1 - i))) % 256)

/-- SHA-1 message padding: `0x80`, zeros to 56 mod 64, then the 64-bit
big-endian bit length. -/
def sha1Pad (msg : List Nat) : List Nat :=
  msg ++ [128] ++ List.replicate ((119 - msg.length % 64) % 64) 0 ++ beBytes 8 (8 * msg.length)

/-- Split a byte list into 64-byte chunks; structural recursion on a fuel
bound of `l.length` steps, which always suffices since each step consumes a
nonempty 64-byte prefix. -/
def chunks64Aux : Nat → List Nat → List (List Nat)
  | 0, _ => []
  | fuel + 1, l =>
    if l.isEmpty then []
    else l.take 64 :: chunks64Aux fuel (l.drop 64)

/-- Split a byte list into 64-byte chunks. -/
def chunks64 (l : List Nat) : List (List Nat) :=
  chunks64Aux l.length l

/-- The sixteen big-endian 32-bit words of a 64-byte chunk. -/
def chunkWords (chunk : List Nat) : List Nat :=
  (List.range 16).map (fun j =>
    16777216 * chunk.getD (4 * j) 0 + 65536 * chunk.getD (4 * j + 1) 0
      + 256 * chunk.getD (4 * j + 2) 0 + chunk.getD (4 * j + 3) 0)

/-- Extend sixteen schedule words to eighty:
`w[i] = rotl1 (w[i-3] xor w[i-8] xor w[i-14] xor w[i-16])`. -/
def sha1Extend : Nat → List Nat → List Nat
  | 0, ws => ws
  | k + 1, ws =>
    let n := ws.length
    let next := rotl32 1
      (Nat.xor (Nat.xor (ws.getD (n - 3) 0) (ws.getD (n - 8) 0))
        (Nat.xor (ws.getD (n - 14) 0) (ws.getD (n - 16) 0)))
    sha1Extend k (ws ++ [next])

/-- The SHA-1 round function for round `t`. -/
def sha1F (t b c d : Nat) : Nat :=
  if t < 20 then (b &&& c) ||| ((4294967295 - w32 b) &&& d)
  else if t < 40 then Nat.xor (Nat.xor b c) d
  else if t < 60 then (b &&& c) ||| (b &&& d) ||| (c &&& d)
  else Nat.xor (Nat.xor b c) d

/-- The SHA-1 round constant for round `t`. -/
def sha1K (t : Nat) : Nat :=
  if t < 20 then 1518500249
  else if t < 40 then 1859775393
  else if t < 60 then 2400959708
  else 3395469782

/-- The five-word SHA-1 state. -/
structure Sha1State where
  h0 : Nat
  h1 : Nat
  h2 : Nat
  h3 : Nat
  h4 : Nat
deriving DecidableEq, Repr

/-- Compress one 64-byte chunk into the running state. -/
def sha1Chunk (st : Sha1State) (chunk : List Nat) : Sha1State :=
  let ws := sha1Extend 64 (chunkWords chunk)
  let final := (List.range 80).foldl
    (fun (s : Nat × Nat × Nat × Nat × Nat) t =>
      let (a, b, c, d, e) := s
      (w32 (rotl32 5 a + sha1F t b c d + e + sha1K t + ws.getD t 0),
        a, rotl32 30 b, c, d))
    (st.h0, st.h1, st.h2, st.h3, st.h4)
  let (a, b, c, d, e) := final
  { h0 := w32 (st.h0 + a), h1 := w32 (st.h1 + b), h2 := w32 (st.h2 + c),
    h3 := w32 (st.h3 + d), h4 := w32 (st.h4 + e) }

/-- SHA-1 of a byte list, as the five-word final state. -/
def sha1 (msg : List Nat) : Sha1State :=
  (chunks64 (sha1Pad msg)).foldl sha1Chunk
    { h0 := 1732584193, h1 := 4023233417, h2 := 2562383102,
      h3 := 271733878, h4 := 3285377520 }

/-- Lowercase hex digit for a nibble. -/
def hexDigitChar (n : Nat) : Char :=
  if n < 10 then Char.ofNat ('0'.toNat + n) else Char.ofNat ('a'.toNat + n - 10)

/-- Eight lowercase hex characters of a 32-bit word, big-endian. -/
def hexWord (wd : Nat) : List Char :=
  (List.range 8).map (fun k => hexDigitChar ((wd >>> (4 * (7 - k))) % 16))

/-- `hashlib.sha1(payload).hexdigest()` as a character list. -/
def sha1HexChars (s : String) : List Char :=
  let st := sha1 (utf8Encode s)
  hexWord st.h0 ++ hexWord st.h1 ++ hexWord st.h2 ++ hexWord st.h3 ++ hexWord st.h4

/-- `hashlib.sha1(payload).hexdigest()`. -/
def sha1HexString (s : String) : String :=
  String.mk (sha1HexChars s)

/-- A lowercase hexadecimal character. -/
def isHexChar (c : Char) : Bool :=
  ('0' ≤ c && c ≤ '9') || ('a' ≤ c && c ≤ 'f')

/-! ## Data model -/

/-- An ETL warning record (`ETLWarning` dataclass). -/
structure ETLWarning where
  source_file : String
  warning_type : String
  message : String
deriving DecidableEq, Repr

/-- A per-file load statistic (`SourceLoadStat` dataclass).  The two
missing-percentage fields hold exact rationals; the source's rounding of the
percentage to two decimals is not modelled. -/
structure SourceLoadStat where
  source_file : String
  role : String
  parser_used : String
  rows_in_source : Nat
  rows_loaded : Nat
  rows_excluded : Nat
  rows_used_for_enrichment : Nat := 0
  province_missing_pct : Option Rat := none
  coordinate_missing_pct : Option Rat := none
  note : String := ""
deriving DecidableEq, Repr

/-- The canonical field list, in canonical order (`CANONICAL_FIELDS`). -/
def CANONICAL_FIELDS : List String :=
  ["project_id", "project_name", "finance_type", "sector", "province",
   "district", "latitude", "longitude", "status", "approval_date",
   "construction_start_date", "financial_close_date", "operation_date",
   "committed_usd", "disbursed_usd", "year"]

/-- A finalized canonical record: one row of the persisted table, with the
dtypes `_finalize_schema` guarantees (`string`, `float64`→`Rat`,
`datetime64`→`EtlDate`, nullable `Int64`→`Int`). -/
structure CanonicalRow where
  project_id : Option String
  project_name : Option String
  finance_type : Option String
  sector : Option String
  province : Option String
  district : Option String
  latitude : Option Rat
  longitude : Option Rat
  status : Option String
  approval_date : Option EtlDate
  construction_start_date : Option EtlDate
  financial_close_date : Option EtlDate
  operation_date : Option EtlDate
  committed_usd : Option Rat
  disbursed_usd : Option Rat
  year : Option Int
deriving DecidableEq, Repr

/-- The all-null canonical record. -/
def emptyCanonicalRow : CanonicalRow :=
  { project_id := none, project_name := none, finance_type := none,
    sector := none, province := none, district := none, latitude := none,
    longitude := none, status := none, approval_date := none,
    construction_start_date := none, financial_close_date := none,
    operation_date := none, committed_usd := none, disbursed_usd := none,
    year := none }

/-- A standardized-but-not-yet-finalized record: text fields still untrimmed
and `year` still the raw numeric `_to_numeric_clean` produced (the dtype a
standardizer hands to `_finalize_schema`). -/
structure StdRow where
  project_id : Option String
  project_name : Option String
  finance_type : Option String
  sector : Option String
  province : Option String
  district : Option String
  latitude : Option Rat
  longitude : Option Rat
  status : Option String
  approval_date : Option EtlDate
  construction_start_date : Option EtlDate
  financial_close_date : Option EtlDate
  operation_date : Option EtlDate
  committed_usd : Option Rat
  disbursed_usd : Option Rat
  year : Option Rat
deriving DecidableEq, Repr

/-- The all-null standardized record. -/
def emptyStdRow : StdRow :=
  { project_id := none, project_name := none, finance_type := none,
    sector := none, province := none, district := none, latitude := none,
    longitude := none, status := none, approval_date := none,
    construction_start_date := none, financial_close_date := none,
    operation_date := none, committed_usd := none, disbursed_usd := none,
    year := none }

/-! ## Raw frames and the column resolver -/

/-- A raw rectangular table: column names plus rows of optional string cells
aligned with the column list. -/
structure RawFrame where
  cols : List String
  rows : List (List (Option String))
deriving DecidableEq, Repr

/-- Look a cell up by column name (`frame[column]` at one row). -/
def cellAt (cols : List String) (row : List (Option String)) (c : String) : Option String :=
  match cols.findIdx? (fun x => x == c) with
  | none => none
  | some i => row.getD i none

/-- `_column_lookup` body: fold the column names into an association list
from normalized name to (stripped) original name, first occurrence winning
and empty normalizations skipped. -/
def columnLookupAux (acc : List (String × String)) : List String → List (String × String)
  | [] => acc
  | c :: rest =>
    let raw := strTrim c
    let normalized := normalizeColumnName raw
    if normalized ≠ "" && !(acc.any (fun p => p.1 == normalized)) then
      columnLookupAux (acc ++ [(normalized, raw)]) rest
    else
      columnLookupAux acc rest

/-- `_column_lookup(frame)`. -/
def columnLookup (cols : List String) : List (String × String) :=
  columnLookupAux [] cols

/-- First value bound to `k` in an association list (`lookup[k]`). -/
def lookupAssoc (l : List (String × String)) (k : String) : Option String :=
  (l.find? (fun p => p.1 == k)).map (fun p => p.2)

/-- First pass of `_find_column`: exact normalized-name match, in
candidate-list order. -/
def findExact (lookup : List (String × String)) : List String → Option String
  | [] => none
  | c :: rest =>
    match lookupAssoc lookup (normalizeColumnName c) with
    | some v => some v
    | none => findExact lookup rest

/-- Second pass of `_find_column`: substring containment in either direction,
in candidate-list order (candidates whose normalization is empty are
skipped), scanning the lookup in insertion order. -/
def findSub (lookup : List (String × String)) : List String → Option String
  | [] => none
  | c :: rest =>
    let n := normalizeColumnName c
    if n = "" then findSub lookup rest
    else
      match lookup.find? (fun p => containsStr p.1 n || containsStr n p.1) with
      | some p => some p.2
      | none => findSub lookup rest

/-- `_find_column(frame, candidates)`. -/
def findColumn (cols : List String) (candidates : List String) : Option String :=
  match findExact (columnLookup cols) candidates with
  | some v => some v
  | none => findSub (columnLookup cols) candidates

/-- Second pass as this specification's prose describes it — substring
containment in either direction with no guard on empty normalizations.
Modelled from the spec for comparison with `findSub`. -/
def specFindSub (lookup : List (String × String)) : List String → Option String
  | [] => none
  | c :: rest =>
    let n := normalizeColumnName c
    match lookup.find? (fun p => containsStr p.1 n || containsStr n p.1) with
    | some p => some p.2
    | none => specFindSub lookup rest

/-- The resolver as the specification's prose describes it: exact pass, then
the unguarded substring pass.  Modelled from the spec for comparison with
`findColumn`. -/
def specFindColumn (cols : List String) (candidates : List String) : Option String :=
  match findExact (columnLookup cols) candidates with
  | some v => some v
  | none => specFindSub (columnLookup cols) candidates

/-- `_get_column`: the matched column's cells, or an all-null series. -/
def getColumnSeries (f : RawFrame) (candidates : List String) : List (Option String) :=
  match findColumn f.cols candidates with
  | none => List.replicate f.rows.length none
  | some c => f.rows.map (fun row => cellAt f.cols row c)

/-! ## Series transforms -/

/-- `_to_numeric_clean` character cleaning: drop `,` and `$` and `)`, turn
`(` into a leading minus (Python's `str.replace` applied in sequence). -/
def cleanNumericChars (cs : List Char) : List Char :=
  cs.filterMap (fun c =>
    if c == ',' || c == '$' || c == ')' then none
    else if c == '(' then some '-'
    else some c)

/-- `_to_numeric_clean` on one cell, including the unit multiplier. -/
def cleanNumericCell (mult : Rat) (cell : Option String) : Option Rat :=
  (cell.bind (fun s => parseRat (String.mk (trimChars (cleanNumericChars s.data))))).map
    (fun r => r * mult)

/-- `_to_numeric_clean(series, multiplier)`. -/
def toNumericClean (s : List (Option String)) (mult : Rat) : List (Option Rat) :=
  s.map (cleanNumericCell mult)

/-- `a.combine_first(b)` element-wise. -/
def combineFirstSeries {α : Type} (a b : List (Option α)) : List (Option α) :=
  List.zipWith orElseO a b

/-- `_coalesce_series(series_list, index)`: first non-null wins per row. -/
def coalesceSeries {α : Type} (ls : List (List (Option α))) (n : Nat) : List (Option α) :=
  match ls with
  | [] => List.replicate n none
  | x :: rest => rest.foldl combineFirstSeries x

/-- `parse_date_any` over a series. -/
def parseDateSeries (s : List (Option String)) : List (Option EtlDate) :=
  s.map (fun cell => cell.bind (fun v => parseDateAny v))

/-! ## Country filter -/

/-- `COUNTRY_HINTS`. -/
def COUNTRY_HINTS : List String := ["country", "recipient", "host"]

/-- The candidate country columns of a frame: original names of lookup
entries whose normalized name contains one of the hints. -/
def countryCandidateColumns (cols : List String) : List String :=
  ((columnLookup cols).filter
    (fun p => COUNTRY_HINTS.any (fun hint => containsStr p.1 hint))).map (fun p => p.2)

/-- The per-column match rule of `_indonesia_mask`, applied to one stripped
cell: ISO-named columns match `"IDN"` exactly (case-insensitive); other
columns match the literal `"indonesia"`, the word-bounded regex
`\bindonesia\b`, or `"IDN"`; null never matches (`fillna(False)`). -/
def columnCountryHit (colName : String) (cell : Option String) : Bool :=
  match cell with
  | none => false
  | some raw =>
    let v := strTrim raw
    if containsStr (normalizeColumnName colName) "iso" then
      strUpper v == "IDN"
    else
      strLower v == "indonesia" || containsWord "indonesia" (strLower v)
        || strUpper v == "IDN"

/-- The per-column match rule as this specification's prose describes it:
"case-insensitive whole-word or substring match" of the country name, or
exact ISO3.  Modelled from the spec for comparison with `columnCountryHit`. -/
def specCountryHit (colName : String) (cell : Option String) : Bool :=
  match cell with
  | none => false
  | some raw =>
    let v := strTrim raw
    if containsStr (normalizeColumnName colName) "iso" then
      strUpper v == "IDN"
    else
      containsWord "indonesia" (strLower v) || containsStr (strLower v) "indonesia"
        || strUpper v == "IDN"

/-- The stripped string series of one column (`astype("string").str.strip()`,
nulls preserved). -/
def strippedColumn (f : RawFrame) (c : String) : List (Option String) :=
  f.rows.map (fun row => (cellAt f.cols row c).map strTrim)

/-- The boolean hit series of one candidate column. -/
def columnHitSeries (f : RawFrame) (c : String) : List Bool :=
  f.rows.map (fun row => columnCountryHit c (cellAt f.cols row c))

/-- The column loop of `_indonesia_mask`: OR the hit series into the mask and
coalesce the stripped values into the country series, column by column. -/
def indonesiaMaskFold (f : RawFrame) (init : List Bool × List (Option String))
    (cs : List String) : List Bool × List (Option String) :=
  cs.foldl
    (fun acc c =>
      (List.zipWith (fun a b => a || b) acc.1 (columnHitSeries f c),
        combineFirstSeries acc.2 (strippedColumn f c)))
    init

/-- `_indonesia_mask(frame)`: keep mask, reconciled country series, and the
candidate columns. -/
def indonesiaMask (f : RawFrame) : List Bool × List (Option String) × List String :=
  let candidates := countryCandidateColumns f.cols
  if candidates.isEmpty then
    (List.replicate f.rows.length false, List.replicate f.rows.length none, [])
  else
    let (mask, country) := indonesiaMaskFold f
      (List.replicate f.rows.length false, List.replicate f.rows.length none) candidates
    (mask, country, candidates)

/-- `frame.loc[mask]`. -/
def maskFilter {α : Type} (rows : List α) (mask : List Bool) : List α :=
  ((rows.zip mask).filter (fun p => p.2)).map (fun p => p.1)

/-- `_enforce_indonesia_filter`: returns kept rows, their country values, the
excluded-row count, and the updated warning list. -/
def enforceIndonesiaFilter (f : RawFrame) (sourceFile : String)
    (warnings : List ETLWarning) :
    List (List (Option String)) × List (Option String) × Nat × List ETLWarning :=
  let (mask, country, countryColumns) := indonesiaMask f
  let missingWarning : ETLWarning :=
    { source_file := sourceFile,
      warning_type := "missing_country_filter_columns",
      message := "No country/recipient/host column found; all rows excluded by Indonesia-only rule." }
  let warnings2 :=
    if countryColumns.isEmpty then warnings ++ [missingWarning]
    else warnings
  let kept := maskFilter f.rows mask
  let keptCountry := maskFilter country mask
  let excluded := (mask.filter (fun b => !b)).length
  (kept, keptCountry, excluded, warnings2)

/-! ## Schema finalization (`_finalize_schema`) -/

/-- The per-row dtype coercions of `_finalize_schema` on a standardizer
frame: trim text fields (empty to null) and cast `year` to nullable integer.
`astype("Int64")` validates the whole column before converting
(`yearCastOk` below); this per-row conversion is the post-validation step,
so its `year` clause only ever sees integral values. -/
def finalizeStdRow (r : StdRow) : CanonicalRow :=
  { project_id := trimToNull r.project_id,
    project_name := trimToNull r.project_name,
    finance_type := trimToNull r.finance_type,
    sector := trimToNull r.sector,
    province := trimToNull r.province,
    district := trimToNull r.district,
    latitude := r.latitude,
    longitude := r.longitude,
    status := trimToNull r.status,
    approval_date := r.approval_date,
    construction_start_date := r.construction_start_date,
    financial_close_date := r.financial_close_date,
    operation_date := r.operation_date,
    committed_usd := r.committed_usd,
    disbursed_usd := r.disbursed_usd,
    year := r.year.bind (fun q => if q.den = 1 then some q.num else none) }

/-- The same coercions applied to an already-canonical frame (the second and
third `_finalize_schema` calls): text trimming again, identity elsewhere. -/
def finalizeCanRow (r : CanonicalRow) : CanonicalRow :=
  { r with
    project_id := trimToNull r.project_id,
    project_name := trimToNull r.project_name,
    finance_type := trimToNull r.finance_type,
    sector := trimToNull r.sector,
    province := trimToNull r.province,
    district := trimToNull r.district,
    status := trimToNull r.status }

/-- `~finance_type.isin(["DF", "FDI"])` on one row (null counts as invalid). -/
def financeInvalid (r : CanonicalRow) : Bool :=
  !(r.finance_type == some "DF" || r.finance_type == some "FDI")

/-- Null out an invalid `finance_type`. -/
def nullInvalidFinance (r : CanonicalRow) : CanonicalRow :=
  if financeInvalid r then { r with finance_type := none } else r

/-- The `invalid_finance_type` warning. -/
def invalidFinanceWarning (sourceFile : String) : ETLWarning :=
  { source_file := sourceFile, warning_type := "invalid_finance_type",
    message := "Rows with invalid finance_type were set to null before fallback handling." }

/-- The column-wide safety check `astype("Int64")` performs on the coerced
`year` column before converting: every present value must be integral.
On a non-integral value pandas raises `TypeError` instead of converting. -/
def yearCastOk (rows : List StdRow) : Bool :=
  rows.all (fun r => match r.year with | none => true | some q => q.den == 1)

/-- The message of the `TypeError` raised by `astype("Int64")` on a
non-integral `year` value. -/
def yearCastError : String :=
  "cannot safely cast non-equivalent float64 to int64"

/-- `_finalize_schema` on a standardizer frame.  The string/date/numeric
coercions are total, but the `year` cast `astype("Int64")` raises a
`TypeError` on any non-integral value — before the invalid-finance check
runs, so on the error path the warning list is exactly the input list. -/
def finalizeSchemaStd (rows : List StdRow) (sourceFile : String)
    (warnings : List ETLWarning) : Except String (List CanonicalRow × List ETLWarning) :=
  if yearCastOk rows then
    let converted := rows.map finalizeStdRow
    if converted.any financeInvalid then
      Except.ok (converted.map nullInvalidFinance, warnings ++ [invalidFinanceWarning sourceFile])
    else Except.ok (converted, warnings)
  else Except.error yearCastError

/-- `_finalize_schema` on an already-canonical frame. -/
def finalizeSchemaCan (rows : List CanonicalRow) (sourceFile : String)
    (warnings : List ETLWarning) : List CanonicalRow × List ETLWarning :=
  let converted := rows.map finalizeCanRow
  if converted.any financeInvalid then
    (converted.map nullInvalidFinance, warnings ++ [invalidFinanceWarning sourceFile])
  else (converted, warnings)

/-! ## Deterministic identifiers (`_generate_deterministic_ids`) -/

/-- A missing or blank native project id. -/
def missingIdRow (r : CanonicalRow) : Bool :=
  match r.project_id with
  | none => true
  | some v => strTrim v == ""

/-- String image of the nullable `year` under `astype("string").fillna("")`. -/
def yearFillStr (y : Option Int) : String :=
  match y with
  | none => ""
  | some v => toString v

/-- The hash payload
`f"{source_file}|{project_name}|{year}|{country_value}"` with nulls filled by
the empty string. -/
def idPayload (sourceFile : String) (r : CanonicalRow) (country : Option String) : String :=
  sourceFile ++ "|" ++ r.project_name.getD "" ++ "|" ++ yearFillStr r.year ++ "|"
    ++ country.getD ""

/-- `gen_` plus the first sixteen hex characters of the payload's SHA-1. -/
def genId (sourceFile : String) (r : CanonicalRow) (country : Option String) : String :=
  "gen_" ++ String.mk ((sha1HexChars (idPayload sourceFile r country)).take 16)

/-- `_generate_deterministic_ids(standardized, source_file, country_series)`. -/
def generateDeterministicIds (rows : List CanonicalRow) (sourceFile : String)
    (countries : List (Option String)) : List CanonicalRow :=
  if rows.all (fun r => !missingIdRow r) then rows
  else
    rows.enum.map (fun p =>
      if missingIdRow p.2 then
        { p.2 with project_id := some (genId sourceFile p.2 (countries.getD p.1 none)) }
      else p.2)

/-! ## Source standardizers -/

/-- `PROVINCE_CANDIDATES`. -/
def PROVINCE_CANDIDATES : List String :=
  ["Available ADM1 Level", "Province", "State/Province", "Region",
   "Project Location", "Location", "ADM1"]

/-- `DISTRICT_CANDIDATES`. -/
def DISTRICT_CANDIDATES : List String :=
  ["Available ADM2 Level", "District", "City", "Kabupaten", "Kota", "ADM2"]

/-- `LATITUDE_CANDIDATES`. -/
def LATITUDE_CANDIDATES : List String :=
  ["Latitude", "latitude", "Lat", "lat", "Y", "y_coord"]

/-- `LONGITUDE_CANDIDATES`. -/
def LONGITUDE_CANDIDATES : List String :=
  ["Longitude", "longitude", "Lon", "lng", "Long", "X", "x_coord"]

/-- `_resolve_location_series(filtered)`: the four keyword-resolved location
series (province, district, latitude, longitude). -/
def resolveLocationSeries (f : RawFrame) :
    List (Option String) × List (Option String) × List (Option Rat) × List (Option Rat) :=
  (getColumnSeries f PROVINCE_CANDIDATES,
   getColumnSeries f DISTRICT_CANDIDATES,
   toNumericClean (getColumnSeries f LATITUDE_CANDIDATES) 1,
   toNumericClean (getColumnSeries f LONGITUDE_CANDIDATES) 1)

/-- Assemble a standardized frame from its sixteen column series (`n` is the
filtered row count; series built from the filtered frame all have length
`n`, and `getD` supplies nulls exactly as an all-`pd.NA` column would). -/
def assembleStdRows (n : Nat)
    (project_id project_name finance_type sector province district : List (Option String))
    (latitude longitude : List (Option Rat))
    (status : List (Option String))
    (approval construction financialClose operation : List (Option EtlDate))
    (committed disbursed : List (Option Rat))
    (year : List (Option Rat)) : List StdRow :=
  (List.range n).map (fun i =>
    { project_id := project_id.getD i none,
      project_name := project_name.getD i none,
      finance_type := finance_type.getD i none,
      sector := sector.getD i none,
      province := province.getD i none,
      district := district.getD i none,
      latitude := latitude.getD i none,
      longitude := longitude.getD i none,
      status := status.getD i none,
      approval_date := approval.getD i none,
      construction_start_date := construction.getD i none,
      financial_close_date := financialClose.getD i none,
      operation_date := operation.getD i none,
      committed_usd := committed.getD i none,
      disbursed_usd := disbursed.getD i none,
      year := year.getD i none })

/-- `_standardize_aiddata`: returns the standardized rows, `rows_in`, the
excluded-row count and the updated warnings (the mapping-audit side list is
not modelled), or the message of the `TypeError` raised by the year cast
together with the warnings accumulated before the raise. -/
def standardizeAiddata (f : RawFrame) (sourceFile : String)
    (warnings : List ETLWarning) :
    Except (String × List ETLWarning) (List CanonicalRow × Nat × Nat × List ETLWarning) :=
  let rowsIn := f.rows.length
  let (kept, country, excludedByCountry, w1) := enforceIndonesiaFilter f sourceFile warnings
  let g : RawFrame := { cols := f.cols, rows := kept }
  let n := kept.length
  let (_, _, locLat, locLon) := resolveLocationSeries g
  let latitude := coalesceSeries
    [toNumericClean (getColumnSeries g
      ["Latitude", "Project Latitude", "Available Latitude", "Lat"]) 1, locLat] n
  let longitude := coalesceSeries
    [toNumericClean (getColumnSeries g
      ["Longitude", "Project Longitude", "Available Longitude", "Lon", "Lng"]) 1, locLon] n
  let approval := parseDateSeries (getColumnSeries g
    ["Commitment Date", "Commitment Date (MM/DD/YYYY)", "Original Commitment Date",
     "Date of Commitment"])
  let actualStart := parseDateSeries (getColumnSeries g
    ["Actual Implementation Start Date", "Implementation Start Date",
     "Actual Construction Start Date", "Construction Start Date"])
  let plannedStart := parseDateSeries (getColumnSeries g
    ["Planned Implementation Start Date", "Planned Construction Start Date",
     "Planned Start Date", "Expected Start Date"])
  let financialClose := parseDateSeries (getColumnSeries g
    ["Financial Close Date", "Loan Signing Date"])
  let actualCompletion := parseDateSeries (getColumnSeries g
    ["Actual Completion Date", "Actual Project Completion Date"])
  let plannedCompletion := parseDateSeries (getColumnSeries g
    ["Planned Completion Date", "Expected Completion Date"])
  let committed := coalesceSeries
    [toNumericClean (getColumnSeries g ["Adjusted Amount (Nominal USD)"]) 1,
     toNumericClean (getColumnSeries g ["Amount (Nominal USD)"]) 1] n
  let stdRows := assembleStdRows n
    (getColumnSeries g ["AidData Record ID"])
    (getColumnSeries g ["Title"])
    (List.replicate n (some "DF"))
    (getColumnSeries g ["Sector Name"])
    (getColumnSeries g ["Available ADM1 Level"])
    (getColumnSeries g ["Available ADM2 Level"])
    latitude longitude
    (getColumnSeries g ["Status"])
    approval
    (combineFirstSeries actualStart plannedStart)
    financialClose
    (combineFirstSeries actualCompletion plannedCompletion)
    committed
    (toNumericClean (getColumnSeries g
      ["Disbursed Amount (Nominal USD)", "Disbursement Amount (Nominal USD)"]) 1)
    (toNumericClean (getColumnSeries g ["Commitment Year"]) 1)
  match finalizeSchemaStd stdRows sourceFile w1 with
  | Except.error exc => Except.error (exc, w1)
  | Except.ok (finalized, w2) =>
    let withIds := generateDeterministicIds finalized sourceFile country
    let rowsLoaded := withIds.length
    Except.ok (withIds, rowsIn, excludedByCountry + (rowsIn - rowsLoaded - excludedByCountry), w2)

/-- `_standardize_cgit_tracker`. -/
def standardizeCgitTracker (f : RawFrame) (sourceFile : String)
    (warnings : List ETLWarning) :
    Except (String × List ETLWarning) (List CanonicalRow × Nat × Nat × List ETLWarning) :=
  let rowsIn := f.rows.length
  let (kept, country, excludedByCountry, w1) := enforceIndonesiaFilter f sourceFile warnings
  let g : RawFrame := { cols := f.cols, rows := kept }
  let n := kept.length
  let (locProvince, locDistrict, locLat, locLon) := resolveLocationSeries g
  let projectName := coalesceSeries
    [getColumnSeries g ["Transaction Party"],
     getColumnSeries g ["Investor/Contractor", "Investor", "Investor or Builder"]] n
  let stdRows := assembleStdRows n
    (List.replicate n none)
    projectName
    (List.replicate n (some "FDI"))
    (getColumnSeries g ["Sector"])
    locProvince locDistrict locLat locLon
    (List.replicate n none)
    (List.replicate n none) (List.replicate n none)
    (List.replicate n none) (List.replicate n none)
    (toNumericClean (getColumnSeries g ["Quantity in Millions"]) 1000000)
    (List.replicate n none)
    (toNumericClean (getColumnSeries g ["Year"]) 1)
  match finalizeSchemaStd stdRows sourceFile w1 with
  | Except.error exc => Except.error (exc, w1)
  | Except.ok (finalized, w2) =>
    let withIds := generateDeterministicIds finalized sourceFile country
    let rowsLoaded := withIds.length
    Except.ok (withIds, rowsIn, excludedByCountry + (rowsIn - rowsLoaded - excludedByCountry), w2)

/-- `_standardize_cgit_indonesia`. -/
def standardizeCgitIndonesia (f : RawFrame) (sourceFile : String)
    (warnings : List ETLWarning) :
    Except (String × List ETLWarning) (List CanonicalRow × Nat × Nat × List ETLWarning) :=
  let rowsIn := f.rows.length
  let (kept, country, excludedByCountry, w1) := enforceIndonesiaFilter f sourceFile warnings
  let g : RawFrame := { cols := f.cols, rows := kept }
  let n := kept.length
  let (locProvince, locDistrict, locLat, locLon) := resolveLocationSeries g
  let committed := coalesceSeries
    [toNumericClean (getColumnSeries g ["Amount_musd"]) 1000000,
     toNumericClean (getColumnSeries g ["Amount"]) 1] n
  let stdRows := assembleStdRows n
    (List.replicate n none)
    (getColumnSeries g ["Investor or Builder", "Investor"])
    (List.replicate n (some "FDI"))
    (getColumnSeries g ["Sector"])
    locProvince locDistrict locLat locLon
    (getColumnSeries g ["Status"])
    (List.replicate n none) (List.replicate n none)
    (List.replicate n none) (List.replicate n none)
    committed
    (List.replicate n none)
    (toNumericClean (getColumnSeries g ["Year"]) 1)
  match finalizeSchemaStd stdRows sourceFile w1 with
  | Except.error exc => Except.error (exc, w1)
  | Except.ok (finalized, w2) =>
    let withIds := generateDeterministicIds finalized sourceFile country
    let rowsLoaded := withIds.length
    Except.ok (withIds, rowsIn, excludedByCountry + (rowsIn - rowsLoaded - excludedByCountry), w2)

/-- `_optional_enrichment_frame`: like a standardizer but the
`finance_type` column (assigned `"DF"` only to satisfy finalization) is
dropped at the end, modelled by nulling it.  A `TypeError` from the year
cast escapes to the caller with the warnings accumulated before the raise
(the `warnings` list is mutated in place in the source, so those entries
survive the exception). -/
def optionalEnrichmentFrame (f : RawFrame) (sourceFile : String)
    (warnings : List ETLWarning) :
    Except (String × List ETLWarning) (List CanonicalRow × Nat × Nat × List ETLWarning) :=
  let rowsIn := f.rows.length
  let (kept, country, excludedByCountry, w1) := enforceIndonesiaFilter f sourceFile warnings
  let g : RawFrame := { cols := f.cols, rows := kept }
  let n := kept.length
  let committed := coalesceSeries
    [toNumericClean (getColumnSeries g ["Adjusted Amount (Nominal USD)"]) 1,
     toNumericClean (getColumnSeries g ["Amount (Nominal USD)"]) 1] n
  let stdRows := assembleStdRows n
    (getColumnSeries g ["AidData Record ID", "project_id"])
    (getColumnSeries g ["Title", "Project Name", "project_name"])
    (List.replicate n (some "DF"))
    (getColumnSeries g ["Sector Name", "Sector"])
    (getColumnSeries g ["Available ADM1 Level", "Province"])
    (getColumnSeries g ["Available ADM2 Level", "District"])
    (toNumericClean (getColumnSeries g ["Latitude"]) 1)
    (toNumericClean (getColumnSeries g ["Longitude"]) 1)
    (getColumnSeries g ["Status"])
    (parseDateSeries (getColumnSeries g ["Commitment Date"]))
    (parseDateSeries (getColumnSeries g ["Implementation Start Date"]))
    (parseDateSeries (getColumnSeries g ["Financial Close Date"]))
    (parseDateSeries (getColumnSeries g ["Actual Completion Date"]))
    committed
    (toNumericClean (getColumnSeries g ["Disbursed Amount (Nominal USD)"]) 1)
    (toNumericClean (getColumnSeries g ["Commitment Year", "Year"]) 1)
  match finalizeSchemaStd stdRows sourceFile w1 with
  | Except.error exc => Except.error (exc, w1)
  | Except.ok (finalized, w2) =>
    let withIds := generateDeterministicIds finalized sourceFile country
    let dropped := withIds.map (fun r => { r with finance_type := none })
    let rowsLoaded := dropped.length
    Except.ok (dropped, rowsIn, excludedByCountry + (rowsIn - rowsLoaded - excludedByCountry), w2)

/-! ## Enrichment merger (`_apply_optional_enrichment`) -/

/-- `_normalize_name_for_key`: lowercase, collapse whitespace runs to single
spaces, drop characters outside `[a-z0-9 ]`, strip. -/
def collapseWsAux : Bool → List Char → List Char
  | _, [] => []
  | inRun, c :: rest =>
    if c.isWhitespace then
      if inRun then collapseWsAux true rest else ' ' :: collapseWsAux true rest
    else c :: collapseWsAux false rest

/-- `_normalize_name_for_key` on one value. -/
def normalizeNameForKey (s : String) : String :=
  String.mk (trimChars ((collapseWsAux false (s.data.map Char.toLower)).filter
    (fun c => ('a' ≤ c && c ≤ 'z') || ('0' ≤ c && c ≤ '9') || c == ' ')))

/-- The `(name, year)` merge key: null whenever either component is null
(pandas string concatenation propagates `pd.NA`). -/
def nameYearKey (name : Option String) (year : Option Int) : Option String :=
  match name, year with
  | some n, some y => some (normalizeNameForKey n ++ "|" ++ toString y)
  | _, _ => none

/-- The merge key of one canonical row. -/
def rowNameYearKey (r : CanonicalRow) : Option String :=
  nameYearKey r.project_name r.year

/-- The thirteen `fill_fields` transferred from a matching enrichment row
into the null holes of a primary row (`project_id`, `project_name` and
`finance_type` are not in the list and are left untouched). -/
def fillFromEnrichment (p e : CanonicalRow) : CanonicalRow :=
  { p with
    sector := orElseO p.sector e.sector,
    province := orElseO p.province e.province,
    district := orElseO p.district e.district,
    latitude := orElseO p.latitude e.latitude,
    longitude := orElseO p.longitude e.longitude,
    status := orElseO p.status e.status,
    approval_date := orElseO p.approval_date e.approval_date,
    construction_start_date := orElseO p.construction_start_date e.construction_start_date,
    financial_close_date := orElseO p.financial_close_date e.financial_close_date,
    operation_date := orElseO p.operation_date e.operation_date,
    committed_usd := orElseO p.committed_usd e.committed_usd,
    disbursed_usd := orElseO p.disbursed_usd e.disbursed_usd,
    year := orElseO p.year e.year }

/-- `updates > 0`: at least one fill field is null in `p` and non-null in
`e`. -/
def touchedByEnrichment (p e : CanonicalRow) : Bool :=
  (p.sector.isNone && e.sector.isSome)
  || (p.province.isNone && e.province.isSome)
  || (p.district.isNone && e.district.isSome)
  || (p.latitude.isNone && e.latitude.isSome)
  || (p.longitude.isNone && e.longitude.isSome)
  || (p.status.isNone && e.status.isSome)
  || (p.approval_date.isNone && e.approval_date.isSome)
  || (p.construction_start_date.isNone && e.construction_start_date.isSome)
  || (p.financial_close_date.isNone && e.financial_close_date.isSome)
  || (p.operation_date.isNone && e.operation_date.isSome)
  || (p.committed_usd.isNone && e.committed_usd.isSome)
  || (p.disbursed_usd.isNone && e.disbursed_usd.isSome)
  || (p.year.isNone && e.year.isSome)

/-- The id lookup (`dropna` on `project_id`, duplicates dropped keeping the
first, indexed by id): the first enrichment row carrying the id. -/
def enrichFindById (es : List CanonicalRow) (i : String) : Option CanonicalRow :=
  es.find? (fun e => decide (e.project_id = some i))

/-- The `(name, year)` lookup (`dropna` on the key, duplicates dropped
keeping the first): the first enrichment row carrying the key. -/
def enrichFindByKey (es : List CanonicalRow) (k : String) : Option CanonicalRow :=
  es.find? (fun e => decide (rowNameYearKey e = some k))

/-- Pass 1 of `_apply_optional_enrichment` on one row: match by
`project_id` and fill nulls; the Boolean records whether the row was
touched. -/
def enrichPass1Row (es : List CanonicalRow) (p : CanonicalRow) : CanonicalRow × Bool :=
  match p.project_id with
  | none => (p, false)
  | some i =>
    match enrichFindById es i with
    | none => (p, false)
    | some e => (fillFromEnrichment p e, touchedByEnrichment p e)

/-- Pass 2 on one row: match by the normalized `(name, year)` key (computed
after pass 1, whose fills can change `year`) and fill remaining nulls. -/
def enrichPass2Row (es : List CanonicalRow) (pt : CanonicalRow × Bool) : CanonicalRow × Bool :=
  match rowNameYearKey pt.1 with
  | none => pt
  | some k =>
    match enrichFindByKey es k with
    | none => pt
    | some e => (fillFromEnrichment pt.1 e, pt.2 || touchedByEnrichment pt.1 e)

/-- `_apply_optional_enrichment(projects, enrich)`: the merged rows and the
touched-row count. -/
def applyOptionalEnrichment (projects es : List CanonicalRow) :
    List CanonicalRow × Nat :=
  if projects.isEmpty || es.isEmpty then (projects, 0)
  else
    let merged := projects.map (fun p => enrichPass2Row es (enrichPass1Row es p))
    (merged.map (fun pt => pt.1), (merged.filter (fun pt => pt.2)).length)

/-! ## Final deduplication and canonical finalization -/

/-- The `(project_id, finance_type)` deduplication key. -/
def canonKey (r : CanonicalRow) : Option String × Option String :=
  (r.project_id, r.finance_type)

/-- `drop_duplicates(subset, keep="first")`: keep a row exactly when no
earlier row carries the same key (`seen` accumulates the keys already
kept). -/
def dedupByKeyAux {α κ : Type} [DecidableEq κ] (key : α → κ) (seen : List κ) :
    List α → List α
  | [] => []
  | x :: xs =>
    if seen.any (fun k => decide (k = key x)) then dedupByKeyAux key seen xs
    else x :: dedupByKeyAux key (key x :: seen) xs

/-- `drop_duplicates(subset=["project_id", "finance_type"], keep="first")`. -/
def dedupByKey {α κ : Type} [DecidableEq κ] (key : α → κ) (l : List α) : List α :=
  dedupByKeyAux key [] l

/-- The `missing_finance_type` warning of the final drop. -/
def missingFinanceWarning : ETLWarning :=
  { source_file := "canonical_dataset", warning_type := "missing_finance_type",
    message := "Some rows had missing finance_type after source mapping and were dropped." }

/-- The terminal block of `run_etl`: re-finalize the concatenated frame,
drop rows with null `finance_type` (warning once), and deduplicate on
`(project_id, finance_type)` keeping first occurrences.  Skipped entirely
when the frame is empty. -/
def canonicalFinalize (projects : List CanonicalRow) (warnings : List ETLWarning) :
    List CanonicalRow × List ETLWarning :=
  if projects.isEmpty then (projects, warnings)
  else
    let (finalized, w1) := finalizeSchemaCan projects "canonical_dataset" warnings
    let w2 :=
      if finalized.any (fun r => r.finance_type.isNone) then w1 ++ [missingFinanceWarning]
      else w1
    let dropped := finalized.filter (fun r => r.finance_type.isSome)
    (dedupByKey canonKey dropped, w2)

/-! ## Quality report -/

/-- The structured data-quality report (`_build_quality_report`), minus the
wall-clock `generated_at_utc` timestamp.  `missing_pct` holds exact
rationals (the 2-decimal rounding is not modelled). -/
structure QualityReport where
  raw_file_count : Nat
  row_count : Nat
  warning_count : Nat
  warnings : List ETLWarning
  source_loads : List SourceLoadStat
  missing_pct : List (String × Rat)
deriving DecidableEq, Repr

/-- Null count of one selector over the final frame. -/
def nullCountBy (projects : List CanonicalRow) (isNull : CanonicalRow → Bool) : Nat :=
  (projects.filter isNull).length

/-- `isna().mean() * 100` per canonical field of the final frame. -/
def fieldMissingPct (projects : List CanonicalRow) : List (String × Rat) :=
  let n := projects.length
  let pct := fun (isNull : CanonicalRow → Bool) =>
    ((nullCountBy projects isNull : Rat) * 100) / (n : Rat)
  [("project_id", pct (fun r => r.project_id.isNone)),
   ("project_name", pct (fun r => r.project_name.isNone)),
   ("finance_type", pct (fun r => r.finance_type.isNone)),
   ("sector", pct (fun r => r.sector.isNone)),
   ("province", pct (fun r => r.province.isNone)),
   ("district", pct (fun r => r.district.isNone)),
   ("latitude", pct (fun r => r.latitude.isNone)),
   ("longitude", pct (fun r => r.longitude.isNone)),
   ("status", pct (fun r => r.status.isNone)),
   ("approval_date", pct (fun r => r.approval_date.isNone)),
   ("construction_start_date", pct (fun r => r.construction_start_date.isNone)),
   ("financial_close_date", pct (fun r => r.financial_close_date.isNone)),
   ("operation_date", pct (fun r => r.operation_date.isNone)),
   ("committed_usd", pct (fun r => r.committed_usd.isNone)),
   ("disbursed_usd", pct (fun r => r.disbursed_usd.isNone)),
   ("year", pct (fun r => r.year.isNone))]

/-- `_build_quality_report`. -/
def buildQualityReport (projects : List CanonicalRow) (rawFileCount : Nat)
    (warnings : List ETLWarning) (sourceLoads : List SourceLoadStat) : QualityReport :=
  { raw_file_count := rawFileCount,
    row_count := projects.length,
    warning_count := warnings.length,
    warnings := warnings,
    source_loads := sourceLoads,
    missing_pct :=
      if projects.isEmpty then CANONICAL_FIELDS.map (fun c => (c, (100 : Rat)))
      else fieldMissingPct projects }

/-- `_source_missingness(standardized)`. -/
def sourceMissingness (rows : List CanonicalRow) : Option Rat × Option Rat :=
  if rows.isEmpty then (none, none)
  else
    let n := rows.length
    (some (((nullCountBy rows (fun r => r.province.isNone) : Rat) * 100) / (n : Rat)),
     some (((nullCountBy rows (fun r => r.latitude.isNone || r.longitude.isNone) : Rat) * 100)
       / (n : Rat)))

/-! ## Pipeline orchestrator (`run_etl`) -/

/-- `AIDDATA_FILENAME`. -/
def AIDDATA_FILENAME : String := "AidDatasGlobalChineseDevelopmentFinanceDataset_v3.0.xlsx"

/-- `CGIT_TRACKER_FILENAME`. -/
def CGIT_TRACKER_FILENAME : String := "China-Global-Investment-Tracker-2024-Fall-public.xlsx"

/-- `CGIT_INDONESIA_FILENAME`. -/
def CGIT_INDONESIA_FILENAME : String := "cgit_indonesia_investments_2006_2025.xlsx"

/-- `ENRICHMENT_FILENAME`. -/
def ENRICHMENT_FILENAME : String := "ChinaGlobalProjectDetails.xlsx"

/-- `PRIMARY_SOURCES`, in configuration (dict-insertion) order. -/
def PRIMARY_SOURCES : List (String × String) :=
  [(AIDDATA_FILENAME, "DF"),
   (CGIT_TRACKER_FILENAME, "FDI"),
   (CGIT_INDONESIA_FILENAME, "FDI")]

/-- `sorted(EXCLUDED_SOURCES - {ENRICHMENT_FILENAME})`: the inventoried
excluded sources in the Python code-point sort order the loop uses. -/
def EXCLUDED_SOURCES_SORTED : List String :=
  ["BI_FDI In Indonesia By Country Of Origin.xls",
   "Geographical Spead [Spreadsheet].xlsx",
   "IMF DIP.csv",
   "bps_fdi_china_2015_2023.xlsx",
   "bps_fdi_country_2000_2024_combined.xlsx"]

/-- Decidable equality of read outcomes. -/
instance exceptDecEq {ε α : Type} [DecidableEq ε] [DecidableEq α] :
    DecidableEq (Except ε α) := fun a b =>
  match a, b with
  | Except.ok x, Except.ok y =>
    if h : x = y then Decidable.isTrue (by rw [h])
    else Decidable.isFalse (by intro hc; cases hc; exact h rfl)
  | Except.error x, Except.error y =>
    if h : x = y then Decidable.isTrue (by rw [h])
    else Decidable.isFalse (by intro hc; cases hc; exact h rfl)
  | Except.ok _, Except.error _ => Decidable.isFalse (by intro hc; cases hc)
  | Except.error _, Except.ok _ => Decidable.isFalse (by intro hc; cases hc)

/-- The outcome of reading one discovered file.  The filesystem and the raw
readers are modelled as an environment: each discovered file carries its
basename, its full path, and either a parsed frame plus the parser
description `read_raw_file` would report, or the message of the exception
the read would raise. -/
structure FileEntry where
  name : String
  path : String
  result : Except String (RawFrame × String)
deriving DecidableEq, Repr

/-- `files_by_name = {path.name: path for path in raw_files}` followed by
`.get(source_name)`: the last entry with the basename wins. -/
def filesByName (env : List FileEntry) (name : String) : Option FileEntry :=
  env.foldl (fun acc e => if e.name == name then some e else acc) none

/-- `Path(source_file).name`. -/
def basenameOf (s : String) : String :=
  String.mk (s.data.foldl (fun acc c => if c == '/' then [] else acc ++ [c]) [])

/-- Mutable state of the primary-source loop: accumulated warnings, load
statistics and standardized per-source frames. -/
structure EtlState where
  warnings : List ETLWarning
  sourceLoads : List SourceLoadStat
  primaryFrames : List (List CanonicalRow)
deriving Repr

/-- Dispatch on the configured source name, as the `if/elif` chain in the
loop body of `run_etl` does (the final `else` is the unreachable
empty-frame fallback). -/
def standardizeDispatch (sourceName : String) (f : RawFrame) (path : String)
    (warnings : List ETLWarning) :
    Except (String × List ETLWarning) (List CanonicalRow × Nat × Nat × List ETLWarning) :=
  if sourceName = AIDDATA_FILENAME then standardizeAiddata f path warnings
  else if sourceName = CGIT_TRACKER_FILENAME then standardizeCgitTracker f path warnings
  else if sourceName = CGIT_INDONESIA_FILENAME then standardizeCgitIndonesia f path warnings
  else Except.ok ([], f.rows.length, f.rows.length, warnings)

/-- One iteration of the primary-source loop of `run_etl`: the missing-file
branch, the caught read-error branch, or the standardize branch.  Exactly
one load statistic is appended in the branches that complete; the
`try/except` around the loop body covers only `read_raw_file`, so a
`TypeError` raised inside a standardizer escapes the loop (and `run_etl`)
uncaught. -/
def processPrimarySource (rawDir : String) (env : List FileEntry) (st : EtlState)
    (src : String × String) : Except String EtlState :=
  match filesByName env src.1 with
  | none =>
    Except.ok
      { warnings := st.warnings ++
          [{ source_file := rawDir ++ "/" ++ src.1,
             warning_type := "missing_primary_source",
             message := "Required primary source file is missing." }],
        sourceLoads := st.sourceLoads ++
          [{ source_file := rawDir ++ "/" ++ src.1, role := "primary",
             parser_used := "missing", rows_in_source := 0, rows_loaded := 0,
             rows_excluded := 0, note := "required_primary_source_missing" }],
        primaryFrames := st.primaryFrames }
  | some entry =>
    match entry.result with
    | Except.error exc =>
      Except.ok
        { warnings := st.warnings ++
            [{ source_file := entry.path, warning_type := "read_error",
               message := "Failed to read source file: " ++ exc }],
          sourceLoads := st.sourceLoads ++
            [{ source_file := entry.path, role := "primary",
               parser_used := "read_error", rows_in_source := 0, rows_loaded := 0,
               rows_excluded := 0, note := exc }],
          primaryFrames := st.primaryFrames }
    | Except.ok (frame, parser) =>
      match standardizeDispatch src.1 frame entry.path st.warnings with
      | Except.error exc => Except.error exc.1
      | Except.ok (standardized0, rowsIn, rowsExcluded, w1) =>
        let withFt := standardized0.map (fun r => { r with finance_type := some src.2 })
        let (standardized, w2) := finalizeSchemaCan withFt entry.path w1
        let rowsLoaded := standardized.length
        let (provincePct, coordinatePct) := sourceMissingness standardized
        Except.ok
          { warnings := w2,
            sourceLoads := st.sourceLoads ++
              [{ source_file := entry.path, role := "primary", parser_used := parser,
                 rows_in_source := rowsIn, rows_loaded := rowsLoaded,
                 rows_excluded := max rowsExcluded (rowsIn - rowsLoaded),
                 province_missing_pct := provincePct,
                 coordinate_missing_pct := coordinatePct }],
            primaryFrames := st.primaryFrames ++ [standardized] }

/-- The enrichment-read block of `run_etl`: returns the optional enrichment
frame and the updated state.  The `try` here wraps both `read_raw_file` and
`_optional_enrichment_frame`, so a `TypeError` from the enrichment year
cast is caught like a read failure (keeping the warnings the standardizer
appended in place before raising). -/
def processEnrichment (env : List FileEntry) (st : EtlState) :
    Option (List CanonicalRow) × EtlState :=
  match filesByName env ENRICHMENT_FILENAME with
  | none => (none, st)
  | some entry =>
    match entry.result with
    | Except.ok (frame, parser) =>
      match optionalEnrichmentFrame frame entry.path st.warnings with
      | Except.error exc =>
        (none,
          { warnings := exc.2 ++
              [{ source_file := entry.path, warning_type := "enrichment_read_error",
                 message := "Failed to read enrichment source: " ++ exc.1 }],
            sourceLoads := st.sourceLoads ++
              [{ source_file := entry.path, role := "enrichment",
                 parser_used := "read_error", rows_in_source := 0, rows_loaded := 0,
                 rows_excluded := 0, note := exc.1 }],
            primaryFrames := st.primaryFrames })
      | Except.ok (enrichment, rowsIn, rowsExcluded, w1) =>
        let (provincePct, coordinatePct) := sourceMissingness enrichment
        (some enrichment,
          { warnings := w1,
            sourceLoads := st.sourceLoads ++
              [{ source_file := entry.path, role := "enrichment", parser_used := parser,
                 rows_in_source := rowsIn, rows_loaded := 0,
                 rows_excluded := max rowsExcluded rowsIn,
                 note := "optional_enrichment_only",
                 province_missing_pct := provincePct,
                 coordinate_missing_pct := coordinatePct }],
            primaryFrames := st.primaryFrames })
    | Except.error exc =>
      (none,
        { warnings := st.warnings ++
            [{ source_file := entry.path, warning_type := "enrichment_read_error",
               message := "Failed to read enrichment source: " ++ exc }],
          sourceLoads := st.sourceLoads ++
            [{ source_file := entry.path, role := "enrichment",
               parser_used := "read_error", rows_in_source := 0, rows_loaded := 0,
               rows_excluded := 0, note := exc }],
          primaryFrames := st.primaryFrames })

/-- One iteration of the excluded-source inventory loop. -/
def processExcludedSource (env : List FileEntry) (st : EtlState) (name : String) :
    EtlState :=
  match filesByName env name with
  | none => st
  | some entry =>
    match entry.result with
    | Except.ok (frame, parser) =>
      { st with sourceLoads := st.sourceLoads ++
          [{ source_file := entry.path, role := "excluded", parser_used := parser,
             rows_in_source := frame.rows.length, rows_loaded := 0,
             rows_excluded := frame.rows.length,
             note := "excluded_from_project_level" }] }
    | Except.error exc =>
      { st with
        warnings := st.warnings ++
          [{ source_file := entry.path, warning_type := "excluded_source_read_error",
             message := "Source is excluded from canonical rows; row count could not be inspected. Error: " ++ exc }],
        sourceLoads := st.sourceLoads ++
          [{ source_file := entry.path, role := "excluded", parser_used := "excluded",
             rows_in_source := 0, rows_loaded := 0, rows_excluded := 0,
             note := "excluded_from_project_level; row_count_unavailable (" ++ exc ++ ")" }] }

/-- Write `rows_used_for_enrichment` into the first enrichment statistic for
the enrichment file, as the post-merge fix-up loop does. -/
def recordTouchedRows (touched : Nat) : List SourceLoadStat → List SourceLoadStat
  | [] => []
  | stat :: rest =>
    if basenameOf stat.source_file == ENRICHMENT_FILENAME && stat.role == "enrichment" then
      { stat with rows_used_for_enrichment := touched } :: rest
    else stat :: recordTouchedRows touched rest

/-- The full result of a pipeline run that completed.  `persistedCsv` and
`persistedReport` mirror `_write_outputs`, which is executed before
`run_etl` returns whenever no exception escaped the per-source loops. -/
structure EtlOutput where
  projects : List CanonicalRow
  report : QualityReport
  persistedCsv : List CanonicalRow
  persistedReport : QualityReport
deriving Repr

/-- The state entering the primary-source loop: the `no_raw_files` warning
when discovery found nothing, and empty statistic/frame accumulators. -/
def initialEtlState (rawDir : String) (env : List FileEntry) : EtlState :=
  { warnings :=
      if env.isEmpty then
        [{ source_file := rawDir, warning_type := "no_raw_files",
           message := "No files found in data/raw. ETL produced an empty project-level dataset." }]
      else [],
    sourceLoads := [], primaryFrames := [] }

/-- The primary-source `for` loop: each iteration may raise (a standardizer
`TypeError`), aborting the remaining iterations and the whole run. -/
def primaryLoop (rawDir : String) (env : List FileEntry) (st : EtlState) :
    List (String × String) → Except String EtlState
  | [] => Except.ok st
  | src :: rest =>
    match processPrimarySource rawDir env st src with
    | Except.error exc => Except.error exc
    | Except.ok st2 => primaryLoop rawDir env st2 rest

/-- The state after the primary-source loop of `run_etl`, or the message of
an uncaught exception raised inside it. -/
def primaryLoopState (rawDir : String) (env : List FileEntry) : Except String EtlState :=
  primaryLoop rawDir env (initialEtlState rawDir env) PRIMARY_SOURCES

/-- The tail of `run_etl` after all per-file loops: concatenate the primary
frames, apply the optional enrichment (updating the enrichment statistic's
touched-row count), run the terminal finalize/drop/dedup block, build the
quality report and persist both artifacts. -/
def mergeAndPersist (env : List FileEntry) (optionalEnrichment : Option (List CanonicalRow))
    (st3 : EtlState) : EtlOutput :=
  let projects0 := st3.primaryFrames.flatten
  let (projects1, loads1) :=
    match optionalEnrichment with
    | some enrichment =>
      if projects0.isEmpty then (projects0, st3.sourceLoads)
      else
        let (merged, touched) := applyOptionalEnrichment projects0 enrichment
        (merged, recordTouchedRows touched st3.sourceLoads)
    | none => (projects0, st3.sourceLoads)
  let (projects2, warningsFinal) := canonicalFinalize projects1 st3.warnings
  let report := buildQualityReport projects2 env.length warningsFinal loads1
  { projects := projects2, report := report,
    persistedCsv := projects2, persistedReport := report }

/-- `run_etl(raw_dir)`: the whole orchestrator over an environment of
discovered files (in discovery order) with their read outcomes.  A
`TypeError` raised by a primary standardizer's year cast sits outside every
`try/except` and escapes `run_etl` before anything is persisted; every
other per-file condition is caught and the run completes. -/
def runEtl (rawDir : String) (env : List FileEntry) : Except String EtlOutput :=
  match primaryLoopState rawDir env with
  | Except.error exc => Except.error exc
  | Except.ok st1 =>
    let (optionalEnrichment, st2) := processEnrichment env st1
    let st3 := EXCLUDED_SOURCES_SORTED.foldl (processExcludedSource env) st2
    Except.ok (mergeAndPersist env optionalEnrichment st3)

/-- The successful payload of an exception-tracking computation, if any. -/
def exceptToOption {ε α : Type} : Except ε α → Option α
  | Except.ok a => some a
  | Except.error _ => none

/-- Whether a run aborted with the year-cast `TypeError`. -/
def isYearCastFailure : Except String EtlOutput → Bool
  | Except.error e => e == yearCastError
  | Except.ok _ => false

/-- A raw AidData frame whose single row is kept by the Indonesia filter and
carries the non-integral commitment year `2019.5`. -/
def c9BadFrame : RawFrame :=
  { cols := ["Recipient", "Title", "Commitment Year"],
    rows := [[some "Indonesia", some "Port", some "2019.5"]] }

/-- An environment where the AidData source reads successfully but its
`Commitment Year` column holds the non-integral value `2019.5`. -/
def c9BadEnv : List FileEntry :=
  [{ name := AIDDATA_FILENAME, path := "data/raw/" ++ AIDDATA_FILENAME,
     result := Except.ok (c9BadFrame, "excel") }]

/-! ## Raw-file discovery (`discover_raw_files`) -/

/-- An abstract raw directory: whether the root exists, and the recursive
directory listing as (path, is-regular-file) entries, in whatever order the
filesystem enumerates them. -/
structure RawDir where
  rootExists : Bool
  entries : List (String × Bool)
deriving Repr

/-- A path matched by one of the three `rglob` patterns. -/
def hasSupportedExt (p : String) : Bool :=
  ".csv".data.isSuffixOf p.data || ".xlsx".data.isSuffixOf p.data
    || ".xls".data.isSuffixOf p.data

/-- Insert into a strictly ascending duplicate-free list (the effect of
`sorted(set(...))` built up one element at a time). -/
def insertSortedDedup (x : String) : List String → List String
  | [] => [x]
  | y :: ys =>
    if x < y then x :: y :: ys
    else if y < x then y :: insertSortedDedup x ys
    else y :: ys

/-- `sorted({...})`: the ascending duplicate-free list of the input's
elements. -/
def sortedDedup (l : List String) : List String :=
  l.foldr insertSortedDedup []

/-- `discover_raw_files(raw_dir)`: empty if the root is missing, else the
sorted set of regular files matched by the three extension globs. -/
def discoverRawFiles (d : RawDir) : List String :=
  if !d.rootExists then []
  else
    let matched := d.entries.filter (fun en => hasSupportedExt en.1)
    sortedDedup ((matched.filter (fun en => en.2)).map (fun en => en.1))

/-! ## Statement-level definitions for the claims -/

/-- The matching predicate of the resolver's substring pass: containment in
either direction between the normalized candidate and a lookup key. -/
def subMatch (n : String) (q : String × String) : Bool :=
  containsStr q.1 n || containsStr n q.1

/-- Composite of the two canonical-frame finalization maps applied by the
terminal block of `run_etl`: dtype coercion then invalid-finance nulling
(pointwise equal to `finalizeSchemaCan`'s row transform whether or not the
warning branch fires). -/
def canonFinalRow (r : CanonicalRow) : CanonicalRow :=
  nullInvalidFinance (finalizeCanRow r)

/-- Frame condition of the enrichment merger: every field that is non-null
in `p` keeps its value in `q` (all sixteen canonical fields). -/
def EnrichPreserves (p q : CanonicalRow) : Prop :=
  (p.project_id.isSome → q.project_id = p.project_id) ∧
  (p.project_name.isSome → q.project_name = p.project_name) ∧
  (p.finance_type.isSome → q.finance_type = p.finance_type) ∧
  (p.sector.isSome → q.sector = p.sector) ∧
  (p.province.isSome → q.province = p.province) ∧
  (p.district.isSome → q.district = p.district) ∧
  (p.latitude.isSome → q.latitude = p.latitude) ∧
  (p.longitude.isSome → q.longitude = p.longitude) ∧
  (p.status.isSome → q.status = p.status) ∧
  (p.approval_date.isSome → q.approval_date = p.approval_date) ∧
  (p.construction_start_date.isSome → q.construction_start_date = p.construction_start_date) ∧
  (p.financial_close_date.isSome → q.financial_close_date = p.financial_close_date) ∧
  (p.operation_date.isSome → q.operation_date = p.operation_date) ∧
  (p.committed_usd.isSome → q.committed_usd = p.committed_usd) ∧
  (p.disbursed_usd.isSome → q.disbursed_usd = p.disbursed_usd) ∧
  (p.year.isSome → q.year = p.year)

/-- Fill condition of the enrichment merger: every fill field that is null
in `a` and non-null in the matching enrichment row `b` carries `b`'s value
in the result `q` (the thirteen `fill_fields`). -/
def EnrichFilledFrom (a b q : CanonicalRow) : Prop :=
  (a.sector = none → b.sector.isSome → q.sector = b.sector) ∧
  (a.province = none → b.province.isSome → q.province = b.province) ∧
  (a.district = none → b.district.isSome → q.district = b.district) ∧
  (a.latitude = none → b.latitude.isSome → q.latitude = b.latitude) ∧
  (a.longitude = none → b.longitude.isSome → q.longitude = b.longitude) ∧
  (a.status = none → b.status.isSome → q.status = b.status) ∧
  (a.approval_date = none → b.approval_date.isSome → q.approval_date = b.approval_date) ∧
  (a.construction_start_date = none → b.construction_start_date.isSome →
    q.construction_start_date = b.construction_start_date) ∧
  (a.financial_close_date = none → b.financial_close_date.isSome →
    q.financial_close_date = b.financial_close_date) ∧
  (a.operation_date = none → b.operation_date.isSome → q.operation_date = b.operation_date) ∧
  (a.committed_usd = none → b.committed_usd.isSome → q.committed_usd = b.committed_usd) ∧
  (a.disbursed_usd = none → b.disbursed_usd.isSome → q.disbursed_usd = b.disbursed_usd) ∧
  (a.year = none → b.year.isSome → q.year = b.year)

/-- What C9 asserts about the load statistic of one configured primary
source: the stat has role `primary`; if the file is absent it is the
zero-row `missing` stat and a `missing_primary_source` warning naming the
would-be path is among the run's warnings; if the read raised, it is the
`read_error` stat and a `read_error` warning naming the file's path is among
the run's warnings. -/
def PrimaryStatSpec (rawDir : String) (env : List FileEntry)
    (warnings : List ETLWarning) (name : String) (stat : SourceLoadStat) : Prop :=
  stat.role = "primary" ∧
  (filesByName env name = none →
    stat.parser_used = "missing" ∧ stat.rows_in_source = 0 ∧ stat.rows_loaded = 0 ∧
    ∃ wmsg ∈ warnings, wmsg.warning_type = "missing_primary_source" ∧
      wmsg.source_file = rawDir ++ "/" ++ name) ∧
  (∀ ent e, filesByName env name = some ent → ent.result = Except.error e →
    stat.parser_used = "read_error" ∧ stat.rows_loaded = 0 ∧
    ∃ wmsg ∈ warnings, wmsg.warning_type = "read_error" ∧ wmsg.source_file = ent.path)

/-! ## Helper lemmas -/

theorem orElseO_some {α : Type} {a : Option α} {v : α} (h : a = some v) (b : Option α) :
    orElseO a b = a := by
  subst h; rfl

theorem orElseO_isSome_left {α : Type} {a : Option α} (h : a.isSome) (b : Option α) :
    orElseO a b = a := by
  cases a with
  | none => simp [Option.isSome] at h
  | some v => rfl

theorem orElseO_none {α : Type} (b : Option α) : orElseO none b = b := rfl

theorem mem_columnLookupAux {p : String × String} (cols : List String)
    (acc : List (String × String)) (h : p ∈ columnLookupAux acc cols) :
    p ∈ acc ∨ ∃ c ∈ cols, p.1 = normalizeColumnName (strTrim c) := by
  induction cols generalizing acc with
  | nil => exact Or.inl h
  | cons c rest ih =>
    simp only [columnLookupAux] at h
    split at h
    · rcases ih _ h with hacc | ⟨c2, hc2, hp⟩
      · rcases List.mem_append.mp hacc with h1 | h2
        · exact Or.inl h1
        · refine Or.inr ⟨c, List.mem_cons_self c rest, ?_⟩
          simp only [List.mem_singleton] at h2
          rw [h2]
      · exact Or.inr ⟨c2, List.mem_cons_of_mem c hc2, hp⟩
    · rcases ih _ h with hacc | ⟨c2, hc2, hp⟩
      · exact Or.inl hacc
      · exact Or.inr ⟨c2, List.mem_cons_of_mem c hc2, hp⟩

theorem mem_columnLookup {p : String × String} {cols : List String}
    (h : p ∈ columnLookup cols) :
    ∃ c ∈ cols, p.1 = normalizeColumnName (strTrim c) := by
  rcases mem_columnLookupAux cols [] h with hacc | hex
  · cases hacc
  · exact hex

theorem countryCandidateColumns_eq_nil {cols : List String}
    (hnone : ∀ c ∈ cols, ∀ hint ∈ COUNTRY_HINTS,
      containsStr (normalizeColumnName (strTrim c)) hint = false) :
    countryCandidateColumns cols = [] := by
  unfold countryCandidateColumns
  have hfilter : (columnLookup cols).filter
      (fun p => COUNTRY_HINTS.any (fun hint => containsStr p.1 hint)) = [] := by
    rw [List.filter_eq_nil_iff]
    intro p hp
    rcases mem_columnLookup hp with ⟨c, hc, hpeq⟩
    simp only [Bool.not_eq_true, List.any_eq_false]
    intro hint hhint
    rw [hpeq]
    exact hnone c hc hint hhint
  rw [hfilter]
  rfl

theorem maskFilter_replicate_false {α : Type} (rows : List α) (n : Nat) :
    maskFilter rows (List.replicate n false) = [] := by
  induction rows generalizing n with
  | nil => cases n <;> rfl
  | cons x xs ih =>
    cases n with
    | zero => rfl
    | succ m =>
      simp only [maskFilter, List.replicate, List.zip_cons_cons, List.filter_cons]
      simpa [maskFilter] using ih m

theorem filter_not_replicate_false (n : Nat) :
    ((List.replicate n false).filter (fun b => !b)).length = n := by
  induction n with
  | zero => rfl
  | succ m ih =>
    simp only [List.replicate, List.filter_cons]
    simp [ih]

/-! ## C7: country filter with no qualifying columns -/

/-- C7: for every table in which no column's normalized name contains
"country", "recipient", or "host", the country filter keeps no rows, counts
every row as excluded, and appends exactly one
`missing_country_filter_columns` warning for that source. -/
theorem c7_no_country_columns_excludes_all (f : RawFrame) (src : String)
    (w : List ETLWarning)
    (hnone : ∀ c ∈ f.cols, ∀ hint ∈ COUNTRY_HINTS,
      containsStr (normalizeColumnName (strTrim c)) hint = false) :
    (enforceIndonesiaFilter f src w).1 = [] ∧
    (enforceIndonesiaFilter f src w).2.2.1 = f.rows.length ∧
    (enforceIndonesiaFilter f src w).2.2.2 =
      w ++ [{ source_file := src,
              warning_type := "missing_country_filter_columns",
              message := "No country/recipient/host column found; all rows excluded by Indonesia-only rule." }] ∧
    ((enforceIndonesiaFilter f src w).2.2.2.filter
        (fun x => x.warning_type == "missing_country_filter_columns")).length =
      (w.filter (fun x => x.warning_type == "missing_country_filter_columns")).length + 1 := by
  have hcand := countryCandidateColumns_eq_nil hnone
  refine ⟨?_, ?_, ?_, ?_⟩
  · simp only [enforceIndonesiaFilter, indonesiaMask, hcand, List.isEmpty_nil, if_true]
    exact maskFilter_replicate_false f.rows f.rows.length
  · simp only [enforceIndonesiaFilter, indonesiaMask, hcand, List.isEmpty_nil, if_true]
    exact filter_not_replicate_false f.rows.length
  · simp only [enforceIndonesiaFilter, indonesiaMask, hcand, List.isEmpty_nil, if_true]
  · simp only [enforceIndonesiaFilter, indonesiaMask, hcand, List.isEmpty_nil, if_true,
      List.filter_append]
    simp

/-- Witness for C7 at a concrete two-row frame with no country-hinting
column. -/
theorem c7_no_country_columns_excludes_all_witness :
    (enforceIndonesiaFilter
        { cols := ["Sector", "Amount"], rows := [[some "Energy", some "1"], [none, none]] }
        "data/raw/f.csv" []).1 = [] ∧
    (enforceIndonesiaFilter
        { cols := ["Sector", "Amount"], rows := [[some "Energy", some "1"], [none, none]] }
        "data/raw/f.csv" []).2.2.1 = 2 ∧
    (enforceIndonesiaFilter
        { cols := ["Sector", "Amount"], rows := [[some "Energy", some "1"], [none, none]] }
        "data/raw/f.csv" []).2.2.2 =
      [{ source_file := "data/raw/f.csv",
         warning_type := "missing_country_filter_columns",
         message := "No country/recipient/host column found; all rows excluded by Indonesia-only rule." }] := by
  have h := c7_no_country_columns_excludes_all
    { cols := ["Sector", "Amount"], rows := [[some "Energy", some "1"], [none, none]] }
    "data/raw/f.csv" [] (by decide)
  exact ⟨h.1, h.2.1, by rw [h.2.2.1]; rfl⟩

/-! ## C6: the per-row country match rule -/

theorem get?_zipWith_or {xs ys : List Bool} {i : Nat} {x y : Bool}
    (hx : xs.get? i = some x) (hy : ys.get? i = some y) :
    (List.zipWith (fun a b => a || b) xs ys).get? i = some (x || y) := by
  induction xs generalizing ys i with
  | nil => simp at hx
  | cons a as ih =>
    cases ys with
    | nil => simp at hy
    | cons b bs =>
      cases i with
      | zero =>
        simp only [List.get?] at hx hy
        cases hx; cases hy
        rfl
      | succ j =>
        simp only [List.get?] at hx hy
        simpa using ih hx hy

theorem indonesiaMaskFold_get (f : RawFrame) (cs : List String)
    (minit : List Bool) (cinit : List (Option String)) (i : Nat)
    (r : List (Option String)) (b : Bool)
    (hr : f.rows.get? i = some r) (hb : minit.get? i = some b) :
    (indonesiaMaskFold f (minit, cinit) cs).1.get? i =
      some (b || cs.any (fun c => columnCountryHit c (cellAt f.cols r c))) := by
  induction cs generalizing minit cinit b with
  | nil =>
    simpa [indonesiaMaskFold] using hb
  | cons c rest ih =>
    have hhit : (columnHitSeries f c).get? i =
        some (columnCountryHit c (cellAt f.cols r c)) := by
      show (f.rows.map (fun row => columnCountryHit c (cellAt f.cols row c))).get? i = _
      rw [List.get?_eq_getElem?, List.getElem?_map, ← List.get?_eq_getElem?, hr]
      rfl
    have hstep : (List.zipWith (fun a b => a || b) minit (columnHitSeries f c)).get? i =
        some (b || columnCountryHit c (cellAt f.cols r c)) :=
      get?_zipWith_or hb hhit
    have := ih (List.zipWith (fun a b => a || b) minit (columnHitSeries f c))
      (combineFirstSeries cinit (strippedColumn f c))
      (b || columnCountryHit c (cellAt f.cols r c)) hstep
    simp only [indonesiaMaskFold, List.foldl_cons] at this ⊢
    rw [this, Bool.or_assoc]
    simp [List.any_cons]

theorem get?_replicate_lt {α : Type} (a : α) {n i : Nat} (h : i < n) :
    (List.replicate n a).get? i = some a := by
  induction n generalizing i with
  | zero => omega
  | succ m ih =>
    cases i with
    | zero => rfl
    | succ j => simpa [List.replicate] using ih (by omega)

/-- C6, amended: for a table with at least one country-hint column, a row is
kept iff some hint column matches, where ISO-named columns match `"IDN"`
exactly (case-insensitive) and other hint columns match the exact
case-insensitive value `"indonesia"`, a word-boundary-delimited occurrence
of `"indonesia"`, or exact `"IDN"` — plain substring occurrences (such as
`"Indonesian"`) do not match. -/
theorem c6_country_row_match (f : RawFrame) (i : Nat) (r : List (Option String))
    (hne : (indonesiaMask f).2.2 ≠ []) (hr : f.rows.get? i = some r) :
    (indonesiaMask f).1.get? i = some true ↔
      ∃ c ∈ (indonesiaMask f).2.2, columnCountryHit c (cellAt f.cols r c) = true := by
  have hi : i < f.rows.length := List.get?_eq_some.mp hr |>.choose
  by_cases hempty : (countryCandidateColumns f.cols).isEmpty
  · exfalso
    apply hne
    simp [indonesiaMask, hempty]
  · have hmask : (indonesiaMask f).1.get? i =
        some ((countryCandidateColumns f.cols).any
          (fun c => columnCountryHit c (cellAt f.cols r c))) := by
      have hfold := indonesiaMaskFold_get f (countryCandidateColumns f.cols)
        (List.replicate f.rows.length false) (List.replicate f.rows.length none) i r false
        hr (get?_replicate_lt false hi)
      simp only [indonesiaMask, hempty, Bool.false_eq_true, if_false, Bool.false_or] at hfold ⊢
      exact hfold
    have hcand : (indonesiaMask f).2.2 = countryCandidateColumns f.cols := by
      simp [indonesiaMask, hempty]
    rw [hmask, hcand, Option.some_inj]
    exact List.any_eq_true

/-- Witness for the amended C6 at a concrete frame: the row `"idn"` under a
`Recipient ISO` column is kept, and the second, Vietnam row is not. -/
theorem c6_country_row_match_witness :
    ((indonesiaMask { cols := ["Recipient ISO", "Sector"], rows := [[some "idn", some "Energy"], [some "VNM", some "Energy"]] }).1.get? 0
      = some true ↔
      ∃ c ∈ (indonesiaMask { cols := ["Recipient ISO", "Sector"], rows := [[some "idn", some "Energy"], [some "VNM", some "Energy"]] }).2.2,
        columnCountryHit c
          (cellAt ["Recipient ISO", "Sector"] [some "idn", some "Energy"] c) = true) ∧
    (indonesiaMask { cols := ["Recipient ISO", "Sector"], rows := [[some "idn", some "Energy"], [some "VNM", some "Energy"]] }).1 =
      [true, false] := by
  constructor
  · exact c6_country_row_match _ 0 [some "idn", some "Energy"] (by decide) (by decide)
  · decide

/-- Counterexample to C6 as stated: the value `"Indonesian"` in a `Country`
column is a case-insensitive substring match of `"Indonesia"` (the rule the
claim describes, `specCountryHit`), yet the code's mask excludes the row. -/
theorem c6_counterexample :
    (indonesiaMask { cols := ["Country"], rows := [[some "Indonesian"]] }).1 = [false] ∧
    (indonesiaMask { cols := ["Country"], rows := [[some "Indonesian"]] }).2.2 = ["Country"] ∧
    specCountryHit "Country" (some "Indonesian") = true ∧
    columnCountryHit "Country" (some "Indonesian") = false := by
  decide

/-! ## C5: the column resolver -/

theorem findExact_eq_none_iff (lk : List (String × String)) (cands : List String) :
    findExact lk cands = none ↔
      ∀ c ∈ cands, lookupAssoc lk (normalizeColumnName c) = none := by
  induction cands with
  | nil => simp [findExact]
  | cons c rest ih =>
    cases hl : lookupAssoc lk (normalizeColumnName c) with
    | some v =>
      simp only [findExact, hl]
      constructor
      · intro h; cases h
      · intro h
        have := h c (List.mem_cons_self c rest)
        rw [hl] at this; cases this
    | none =>
      simp only [findExact, hl]
      rw [ih]
      constructor
      · intro h c2 hc2
        rcases List.mem_cons.mp hc2 with rfl | hmem
        · exact hl
        · exact h c2 hmem
      · intro h c2 hc2
        exact h c2 (List.mem_cons_of_mem c hc2)

theorem findExact_first (lk : List (String × String)) (pre : List String)
    (c : String) (post : List String) (v : String)
    (hpre : ∀ c2 ∈ pre, lookupAssoc lk (normalizeColumnName c2) = none)
    (hc : lookupAssoc lk (normalizeColumnName c) = some v) :
    findExact lk (pre ++ c :: post) = some v := by
  induction pre with
  | nil => simp [findExact, hc]
  | cons p ps ih =>
    have hp := hpre p (List.mem_cons_self p ps)
    simp only [List.cons_append, findExact, hp]
    exact ih (fun c2 hc2 => hpre c2 (List.mem_cons_of_mem p hc2))

theorem findSub_eq_none_iff (lk : List (String × String)) (cands : List String) :
    findSub lk cands = none ↔
      ∀ c ∈ cands, normalizeColumnName c = "" ∨
        lk.find? (subMatch (normalizeColumnName c)) = none := by
  induction cands with
  | nil => simp [findSub]
  | cons c rest ih =>
    by_cases hn : normalizeColumnName c = ""
    · simp only [findSub, if_pos hn]
      rw [ih]
      constructor
      · intro h c2 hc2
        rcases List.mem_cons.mp hc2 with rfl | hmem
        · exact Or.inl hn
        · exact h c2 hmem
      · intro h c2 hc2
        exact h c2 (List.mem_cons_of_mem c hc2)
    · cases hf : lk.find? (subMatch (normalizeColumnName c)) with
      | some p =>
        simp only [findSub, if_neg hn]
        rw [show (lk.find? fun q => containsStr q.1 (normalizeColumnName c)
            || containsStr (normalizeColumnName c) q.1) = some p from hf]
        constructor
        · intro h; cases h
        · intro h
          rcases h c (List.mem_cons_self c rest) with h1 | h2
          · exact absurd h1 hn
          · rw [hf] at h2; cases h2
      | none =>
        simp only [findSub, if_neg hn]
        rw [show (lk.find? fun q => containsStr q.1 (normalizeColumnName c)
            || containsStr (normalizeColumnName c) q.1) = none from hf]
        rw [ih]
        constructor
        · intro h c2 hc2
          rcases List.mem_cons.mp hc2 with rfl | hmem
          · exact Or.inr hf
          · exact h c2 hmem
        · intro h c2 hc2
          exact h c2 (List.mem_cons_of_mem c hc2)

theorem findSub_first (lk : List (String × String)) (pre : List String)
    (c : String) (post : List String) (p : String × String)
    (hpre : ∀ c2 ∈ pre, normalizeColumnName c2 = "" ∨
      lk.find? (subMatch (normalizeColumnName c2)) = none)
    (hn : normalizeColumnName c ≠ "")
    (hc : lk.find? (subMatch (normalizeColumnName c)) = some p) :
    findSub lk (pre ++ c :: post) = some p.2 := by
  induction pre with
  | nil =>
    simp only [List.nil_append, findSub, if_neg hn]
    rw [show (lk.find? fun q => containsStr q.1 (normalizeColumnName c)
        || containsStr (normalizeColumnName c) q.1) = some p from hc]
  | cons q qs ih =>
    rcases hpre q (List.mem_cons_self q qs) with hq | hq
    · simp only [List.cons_append, findSub, if_pos hq]
      exact ih (fun c2 hc2 => hpre c2 (List.mem_cons_of_mem q hc2))
    · by_cases hqn : normalizeColumnName q = ""
      · simp only [List.cons_append, findSub, if_pos hqn]
        exact ih (fun c2 hc2 => hpre c2 (List.mem_cons_of_mem q hc2))
      · simp only [List.cons_append, findSub, if_neg hqn]
        rw [show (lk.find? fun x => containsStr x.1 (normalizeColumnName q)
            || containsStr (normalizeColumnName q) x.1) = none from hq]
        exact ih (fun c2 hc2 => hpre c2 (List.mem_cons_of_mem q hc2))

/-- C5, amended: the resolver first tries exact normalized-name matches in
candidate order (earliest exact match wins); only when no candidate matches
exactly does it fall back to substring containment in either direction, in
candidate order; and it returns `none` exactly when no candidate matches
either pass — with the code's extra guard that a candidate whose
normalization is empty is skipped in the substring pass rather than treated
as a universal substring. -/
theorem c5_find_column (cols cands : List String) :
    (∀ pre c post v, cands = pre ++ c :: post →
      (∀ c2 ∈ pre, lookupAssoc (columnLookup cols) (normalizeColumnName c2) = none) →
      lookupAssoc (columnLookup cols) (normalizeColumnName c) = some v →
      findColumn cols cands = some v) ∧
    ((∀ c ∈ cands, lookupAssoc (columnLookup cols) (normalizeColumnName c) = none) →
      findColumn cols cands = findSub (columnLookup cols) cands) ∧
    (findColumn cols cands = none ↔
      ∀ c ∈ cands, lookupAssoc (columnLookup cols) (normalizeColumnName c) = none ∧
        (normalizeColumnName c ≠ "" →
          (columnLookup cols).find? (subMatch (normalizeColumnName c)) = none)) ∧
    (∀ pre c post p, cands = pre ++ c :: post →
      (∀ c2 ∈ cands, lookupAssoc (columnLookup cols) (normalizeColumnName c2) = none) →
      (∀ c2 ∈ pre, normalizeColumnName c2 = "" ∨
        (columnLookup cols).find? (subMatch (normalizeColumnName c2)) = none) →
      normalizeColumnName c ≠ "" →
      (columnLookup cols).find? (subMatch (normalizeColumnName c)) = some p →
      findColumn cols cands = some p.2) := by
  refine ⟨?_, ?_, ?_, ?_⟩
  · intro pre c post v hsplit hpre hc
    subst hsplit
    have := findExact_first (columnLookup cols) pre c post v hpre hc
    simp [findColumn, this]
  · intro hall
    have hnone : findExact (columnLookup cols) cands = none :=
      (findExact_eq_none_iff _ _).mpr hall
    simp [findColumn, hnone]
  · constructor
    · intro h
      cases hex : findExact (columnLookup cols) cands with
      | some v => simp [findColumn, hex] at h
      | none =>
        simp only [findColumn, hex] at h
        have hexact := (findExact_eq_none_iff _ _).mp hex
        have hsub := (findSub_eq_none_iff _ _).mp h
        intro c hc
        refine ⟨hexact c hc, fun hn => ?_⟩
        rcases hsub c hc with h1 | h2
        · exact absurd h1 hn
        · exact h2
    · intro h
      have hexact : findExact (columnLookup cols) cands = none :=
        (findExact_eq_none_iff _ _).mpr (fun c hc => (h c hc).1)
      have hsub : findSub (columnLookup cols) cands = none := by
        rw [findSub_eq_none_iff]
        intro c hc
        by_cases hn : normalizeColumnName c = ""
        · exact Or.inl hn
        · exact Or.inr ((h c hc).2 hn)
      simp [findColumn, hexact, hsub]
  · intro pre c post p hsplit hall hpre hn hc
    have hexact : findExact (columnLookup cols) cands = none :=
      (findExact_eq_none_iff _ _).mpr hall
    subst hsplit
    have := findSub_first (columnLookup cols) pre c post p hpre hn hc
    simp [findColumn, hexact, this]

/-- Witness for the amended C5: on columns `["Project Title", "Year"]`, the
candidate list `["Year", "Title"]` resolves exactly to `"Year"`; the list
`["???", "Title"]` falls through the exact pass, skips the empty-normalized
candidate, and resolves `"Title"` by substring to `"Project Title"`. -/
theorem c5_find_column_witness :
    findColumn ["Project Title", "Year"] ["Year", "Title"] = some "Year" ∧
    findColumn ["Project Title", "Year"] ["???", "Title"] = some "Project Title" := by
  constructor
  · exact (c5_find_column ["Project Title", "Year"] ["Year", "Title"]).1
      [] "Year" ["Title"] "Year" rfl (by decide) (by decide)
  · exact (c5_find_column ["Project Title", "Year"] ["???", "Title"]).2.2.2
      ["???"] "Title" [] ("projecttitle", "Project Title") rfl (by decide) (by decide)
      (by decide) (by decide)

/-- Counterexample to C5 as stated: with the single column `"A"` and the
single candidate `"???"` (whose normalization is empty, hence a substring of
every normalized column name), the claim's substring pass matches — the
spec-described resolver `specFindColumn` returns the column — but the code
returns `none` because it skips empty-normalized candidates in the substring
pass. -/
theorem c5_counterexample :
    findColumn ["A"] ["???"] = none ∧
    specFindColumn ["A"] ["???"] = some "A" ∧
    containsStr (normalizeColumnName "A") (normalizeColumnName "???") = true := by
  decide

/-! ## C2 and C4: the enrichment merger -/

theorem enrichPreserves_refl (p : CanonicalRow) : EnrichPreserves p p := by
  unfold EnrichPreserves
  repeat' constructor
  all_goals intro _; rfl

theorem enrichPreserves_trans {p m q : CanonicalRow}
    (h1 : EnrichPreserves p m) (h2 : EnrichPreserves m q) : EnrichPreserves p q := by
  obtain ⟨a1, a2, a3, a4, a5, a6, a7, a8, a9, a10, a11, a12, a13, a14, a15, a16⟩ := h1
  obtain ⟨b1, b2, b3, b4, b5, b6, b7, b8, b9, b10, b11, b12, b13, b14, b15, b16⟩ := h2
  refine ⟨?_, ?_, ?_, ?_, ?_, ?_, ?_, ?_, ?_, ?_, ?_, ?_, ?_, ?_, ?_, ?_⟩
  · intro h; rw [b1 (by rw [a1 h]; exact h), a1 h]
  · intro h; rw [b2 (by rw [a2 h]; exact h), a2 h]
  · intro h; rw [b3 (by rw [a3 h]; exact h), a3 h]
  · intro h; rw [b4 (by rw [a4 h]; exact h), a4 h]
  · intro h; rw [b5 (by rw [a5 h]; exact h), a5 h]
  · intro h; rw [b6 (by rw [a6 h]; exact h), a6 h]
  · intro h; rw [b7 (by rw [a7 h]; exact h), a7 h]
  · intro h; rw [b8 (by rw [a8 h]; exact h), a8 h]
  · intro h; rw [b9 (by rw [a9 h]; exact h), a9 h]
  · intro h; rw [b10 (by rw [a10 h]; exact h), a10 h]
  · intro h; rw [b11 (by rw [a11 h]; exact h), a11 h]
  · intro h; rw [b12 (by rw [a12 h]; exact h), a12 h]
  · intro h; rw [b13 (by rw [a13 h]; exact h), a13 h]
  · intro h; rw [b14 (by rw [a14 h]; exact h), a14 h]
  · intro h; rw [b15 (by rw [a15 h]; exact h), a15 h]
  · intro h; rw [b16 (by rw [a16 h]; exact h), a16 h]

theorem fillFromEnrichment_preserves (p e : CanonicalRow) :
    EnrichPreserves p (fillFromEnrichment p e) := by
  unfold EnrichPreserves fillFromEnrichment
  refine ⟨fun _ => rfl, fun _ => rfl, fun _ => rfl, ?_, ?_, ?_, ?_, ?_, ?_, ?_, ?_, ?_,
    ?_, ?_, ?_, ?_⟩
  all_goals intro h; exact orElseO_isSome_left h _

theorem fillFromEnrichment_filled (p e : CanonicalRow) :
    EnrichFilledFrom p e (fillFromEnrichment p e) := by
  unfold EnrichFilledFrom fillFromEnrichment
  refine ⟨?_, ?_, ?_, ?_, ?_, ?_, ?_, ?_, ?_, ?_, ?_, ?_, ?_⟩
  all_goals intro hnone _; simp only [hnone]; rfl

theorem enrichFilledFrom_extend {a b m q : CanonicalRow}
    (h1 : EnrichFilledFrom a b m) (h2 : EnrichPreserves m q) : EnrichFilledFrom a b q := by
  obtain ⟨a1, a2, a3, a4, a5, a6, a7, a8, a9, a10, a11, a12, a13⟩ := h1
  obtain ⟨_, _, _, b4, b5, b6, b7, b8, b9, b10, b11, b12, b13, b14, b15, b16⟩ := h2
  refine ⟨?_, ?_, ?_, ?_, ?_, ?_, ?_, ?_, ?_, ?_, ?_, ?_, ?_⟩
  · intro hn hs; rw [b4 (by rw [a1 hn hs]; exact hs), a1 hn hs]
  · intro hn hs; rw [b5 (by rw [a2 hn hs]; exact hs), a2 hn hs]
  · intro hn hs; rw [b6 (by rw [a3 hn hs]; exact hs), a3 hn hs]
  · intro hn hs; rw [b7 (by rw [a4 hn hs]; exact hs), a4 hn hs]
  · intro hn hs; rw [b8 (by rw [a5 hn hs]; exact hs), a5 hn hs]
  · intro hn hs; rw [b9 (by rw [a6 hn hs]; exact hs), a6 hn hs]
  · intro hn hs; rw [b10 (by rw [a7 hn hs]; exact hs), a7 hn hs]
  · intro hn hs; rw [b11 (by rw [a8 hn hs]; exact hs), a8 hn hs]
  · intro hn hs; rw [b12 (by rw [a9 hn hs]; exact hs), a9 hn hs]
  · intro hn hs; rw [b13 (by rw [a10 hn hs]; exact hs), a10 hn hs]
  · intro hn hs; rw [b14 (by rw [a11 hn hs]; exact hs), a11 hn hs]
  · intro hn hs; rw [b15 (by rw [a12 hn hs]; exact hs), a12 hn hs]
  · intro hn hs; rw [b16 (by rw [a13 hn hs]; exact hs), a13 hn hs]

theorem enrichPass1Row_preserves (es : List CanonicalRow) (p : CanonicalRow) :
    EnrichPreserves p (enrichPass1Row es p).1 := by
  cases hpi : p.project_id with
  | none =>
    simp only [enrichPass1Row, hpi]
    exact enrichPreserves_refl p
  | some i =>
    cases hf : enrichFindById es i with
    | none =>
      simp only [enrichPass1Row, hpi, hf]
      exact enrichPreserves_refl p
    | some e =>
      simp only [enrichPass1Row, hpi, hf]
      exact fillFromEnrichment_preserves p e

theorem enrichPass2Row_preserves (es : List CanonicalRow) (pt : CanonicalRow × Bool) :
    EnrichPreserves pt.1 (enrichPass2Row es pt).1 := by
  cases hk : rowNameYearKey pt.1 with
  | none =>
    simp only [enrichPass2Row, hk]
    exact enrichPreserves_refl pt.1
  | some k =>
    cases hf : enrichFindByKey es k with
    | none =>
      simp only [enrichPass2Row, hk, hf]
      exact enrichPreserves_refl pt.1
    | some e =>
      simp only [enrichPass2Row, hk, hf]
      exact fillFromEnrichment_preserves pt.1 e

theorem applyOptionalEnrichment_get (ps es : List CanonicalRow) (i : Nat)
    (p : CanonicalRow) (hp : ps.get? i = some p)
    (hne : ¬(ps.isEmpty || es.isEmpty) = true) :
    (applyOptionalEnrichment ps es).1.get? i =
      some (enrichPass2Row es (enrichPass1Row es p)).1 := by
  simp only [applyOptionalEnrichment, hne, if_false, Bool.false_eq_true]
  rw [List.get?_eq_getElem?, List.getElem?_map, List.getElem?_map,
    ← List.get?_eq_getElem?, hp]
  rfl

/-- C2: the enrichment merge only fills null fields — for every row and
every canonical field, a field that is non-null in the primary row before
the merge is unchanged by the id-match pass, by the (name, year)-key pass,
and therefore by the whole merge. -/
theorem c2_enrichment_never_overwrites (ps es : List CanonicalRow) (i : Nat)
    (p q : CanonicalRow) (hp : ps.get? i = some p)
    (hq : (applyOptionalEnrichment ps es).1.get? i = some q) :
    EnrichPreserves p (enrichPass1Row es p).1 ∧
    EnrichPreserves (enrichPass1Row es p).1 q ∧
    EnrichPreserves p q := by
  by_cases hguard : (ps.isEmpty || es.isEmpty) = true
  · have hqp : q = p := by
      simp only [applyOptionalEnrichment, hguard, if_true] at hq
      rw [hp] at hq
      exact (Option.some_inj.mp hq).symm
    subst hqp
    have hes : es.isEmpty = true := by
      rcases Bool.or_eq_true_iff.mp hguard with h1 | h2
      · exfalso
        have : ps = [] := List.isEmpty_iff.mp h1
        rw [this] at hp
        cases hp
      · exact h2
    have hesnil : es = [] := List.isEmpty_iff.mp hes
    subst hesnil
    have hpass1 : (enrichPass1Row [] q).1 = q := by
      unfold enrichPass1Row
      cases q.project_id <;> rfl
    rw [hpass1]
    exact ⟨enrichPreserves_refl q, enrichPreserves_refl q, enrichPreserves_refl q⟩
  · have hq2 := applyOptionalEnrichment_get ps es i p hp hguard
    rw [hq2] at hq
    have hqe := Option.some_inj.mp hq
    subst hqe
    refine ⟨enrichPass1Row_preserves es p, enrichPass2Row_preserves es _, ?_⟩
    exact enrichPreserves_trans (enrichPass1Row_preserves es p)
      (enrichPass2Row_preserves es _)

/-- Witness for C2 (the specification's regression scenario): a primary row
with populated `sector` and an enrichment row with a different `sector` for
the same id; after the merge the primary value is retained and only the
null `district` hole is patched. -/
theorem c2_enrichment_never_overwrites_witness :
    (applyOptionalEnrichment
        [{ emptyCanonicalRow with project_id := some "A1", sector := some "Energy" }]
        [{ emptyCanonicalRow with project_id := some "A1", sector := some "Mining", district := some "Bogor" }]).1.get? 0 =
      some { emptyCanonicalRow with project_id := some "A1", sector := some "Energy", district := some "Bogor" } ∧
    EnrichPreserves
      { emptyCanonicalRow with project_id := some "A1", sector := some "Energy" }
      { emptyCanonicalRow with project_id := some "A1", sector := some "Energy", district := some "Bogor" } := by
  refine ⟨by decide, ?_⟩
  exact (c2_enrichment_never_overwrites
    [{ emptyCanonicalRow with project_id := some "A1", sector := some "Energy" }]
    [{ emptyCanonicalRow with project_id := some "A1", sector := some "Mining", district := some "Bogor" }]
    0
    { emptyCanonicalRow with project_id := some "A1", sector := some "Energy" }
    { emptyCanonicalRow with project_id := some "A1", sector := some "Energy", district := some "Bogor" }
    (by decide) (by decide)).2.2

/-- C4, amended: every canonical field except `project_id`, `project_name`
and `finance_type` is eligible for enrichment — for a primary row matched by
id (first enrichment row with that id) or by normalized (name, year) key
(computed after the id pass), any eligible field that is null in the row and
non-null in the matching enrichment row is filled from it.  `project_name`
is not in the code's `fill_fields` list, so a null `project_name` is NOT
filled, contrary to the claim. -/
theorem c4_enrichment_fill_fields (ps es : List CanonicalRow) (i : Nat)
    (p q : CanonicalRow) (hp : ps.get? i = some p)
    (hq : (applyOptionalEnrichment ps es).1.get? i = some q) :
    (∀ pid e, p.project_id = some pid → enrichFindById es pid = some e →
      EnrichFilledFrom p e q) ∧
    (∀ k e2, rowNameYearKey (enrichPass1Row es p).1 = some k →
      enrichFindByKey es k = some e2 →
      EnrichFilledFrom (enrichPass1Row es p).1 e2 q) := by
  by_cases hguard : (ps.isEmpty || es.isEmpty) = true
  · have hes : es = [] := by
      rcases Bool.or_eq_true_iff.mp hguard with h1 | h2
      · exfalso
        rw [List.isEmpty_iff.mp h1] at hp
        cases hp
      · exact List.isEmpty_iff.mp h2
    subst hes
    constructor
    · intro pid e _ hfind
      simp [enrichFindById] at hfind
    · intro k e2 _ hfind
      simp [enrichFindByKey] at hfind
  · have hq2 := applyOptionalEnrichment_get ps es i p hp hguard
    rw [hq2] at hq
    have hqe := Option.some_inj.mp hq
    subst hqe
    constructor
    · intro pid e hpid hfind
      have hpass1 : (enrichPass1Row es p).1 = fillFromEnrichment p e := by
        simp only [enrichPass1Row, hpid, hfind]
      have h1 : EnrichFilledFrom p e (enrichPass1Row es p).1 := by
        rw [hpass1]
        exact fillFromEnrichment_filled p e
      exact enrichFilledFrom_extend h1 (enrichPass2Row_preserves es _)
    · intro k e2 hk hfind
      have hpass2 : (enrichPass2Row es (enrichPass1Row es p)).1 =
          fillFromEnrichment (enrichPass1Row es p).1 e2 := by
        simp only [enrichPass2Row, hk, hfind]
      rw [hpass2]
      exact fillFromEnrichment_filled (enrichPass1Row es p).1 e2

/-- Witness for the amended C4: an id-matched enrichment row fills a null
`sector` hole. -/
theorem c4_enrichment_fill_fields_witness :
    EnrichFilledFrom
      { emptyCanonicalRow with project_id := some "B2" }
      { emptyCanonicalRow with project_id := some "B2", sector := some "Mining" }
      { emptyCanonicalRow with project_id := some "B2", sector := some "Mining" } ∧
    (applyOptionalEnrichment
        [{ emptyCanonicalRow with project_id := some "B2" }]
        [{ emptyCanonicalRow with project_id := some "B2", sector := some "Mining" }]).1.get? 0 =
      some { emptyCanonicalRow with project_id := some "B2", sector := some "Mining" } := by
  refine ⟨?_, by decide⟩
  exact (c4_enrichment_fill_fields
    [{ emptyCanonicalRow with project_id := some "B2" }]
    [{ emptyCanonicalRow with project_id := some "B2", sector := some "Mining" }]
    0
    { emptyCanonicalRow with project_id := some "B2" }
    { emptyCanonicalRow with project_id := some "B2", sector := some "Mining" }
    (by decide) (by decide)).1 "B2"
    { emptyCanonicalRow with project_id := some "B2", sector := some "Mining" }
    (by decide) (by decide)

/-- Counterexample to C4 as stated: a primary row with a null `project_name`
is matched by id against an enrichment row with a non-null `project_name`,
and the merge leaves the hole unfilled (`project_name` is not among the
code's `fill_fields`). -/
theorem c4_counterexample :
    (applyOptionalEnrichment
        [{ emptyCanonicalRow with project_id := some "A1" }]
        [{ emptyCanonicalRow with project_id := some "A1", project_name := some "Jakarta Port" }]).1 =
      [{ emptyCanonicalRow with project_id := some "A1" }] ∧
    ({ emptyCanonicalRow with project_id := some "A1" } : CanonicalRow).project_name = none ∧
    ({ emptyCanonicalRow with project_id := some "A1", project_name := some "Jakarta Port" } : CanonicalRow).project_name = some "Jakarta Port" ∧
    enrichFindById
        [{ emptyCanonicalRow with project_id := some "A1", project_name := some "Jakarta Port" }]
        "A1" =
      some { emptyCanonicalRow with project_id := some "A1", project_name := some "Jakarta Port" } := by
  decide

/-! ## C3: deterministic fallback identifiers -/

theorem hexDigitChar_mod_isHex (n : Nat) : isHexChar (hexDigitChar (n % 16)) = true := by
  have hlt : n % 16 < 16 := Nat.mod_lt _ (by norm_num)
  have hall : ∀ m, m < 16 → isHexChar (hexDigitChar m) = true := by decide
  exact hall _ hlt

theorem mem_hexWord_isHex {c : Char} {wd : Nat} (h : c ∈ hexWord wd) :
    isHexChar c = true := by
  simp only [hexWord, List.mem_map, List.mem_range] at h
  rcases h with ⟨k, _, rfl⟩
  exact hexDigitChar_mod_isHex _

theorem mem_sha1HexChars_isHex {c : Char} {s : String} (h : c ∈ sha1HexChars s) :
    isHexChar c = true := by
  simp only [sha1HexChars, List.mem_append] at h
  rcases h with ((((h | h) | h) | h) | h) <;> exact mem_hexWord_isHex h

theorem hexWord_length (wd : Nat) : (hexWord wd).length = 8 := by
  simp [hexWord]

theorem sha1HexChars_length (s : String) : (sha1HexChars s).length = 40 := by
  simp [sha1HexChars, List.length_append, hexWord_length]

theorem genId_length (src : String) (r : CanonicalRow) (country : Option String) :
    (genId src r country).length = 20 := by
  unfold genId
  rw [String.length_append]
  have : (String.mk ((sha1HexChars (idPayload src r country)).take 16)).length =
      ((sha1HexChars (idPayload src r country)).take 16).length := rfl
  rw [this, List.length_take, sha1HexChars_length]
  rfl

/-- C3: for every standardized row with a missing or blank native
`project_id`, the generated identifier is `gen_` followed by the first 16
hex characters of the SHA-1 digest of
`source_file|project_name|year|country_value` (nulls filled by the empty
string); rows with a non-blank native id are returned unchanged; the
generated suffix really is 16 hexadecimal characters; and the generator is a
deterministic function of its inputs. -/
theorem c3_deterministic_ids (rows : List CanonicalRow) (src : String)
    (countries : List (Option String)) (i : Nat) (r : CanonicalRow)
    (hr : rows.get? i = some r) :
    (missingIdRow r = true →
      (generateDeterministicIds rows src countries).get? i =
        some { r with project_id := some ("gen_" ++ String.mk ((sha1HexChars
          (src ++ "|" ++ r.project_name.getD "" ++ "|" ++ yearFillStr r.year ++ "|"
            ++ (countries.getD i none).getD "")).take 16)) }) ∧
    (missingIdRow r = false →
      (generateDeterministicIds rows src countries).get? i = some r) ∧
    ((genId src r (countries.getD i none)).length = 20 ∧
      ∀ c ∈ (sha1HexChars (idPayload src r (countries.getD i none))).take 16,
        isHexChar c = true) ∧
    (∀ rows2 src2 countries2, rows2 = rows → src2 = src → countries2 = countries →
      generateDeterministicIds rows2 src2 countries2 =
        generateDeterministicIds rows src countries) := by
  refine ⟨?_, ?_, ⟨genId_length src r _, ?_⟩, ?_⟩
  · intro hmiss
    have hnotall : ¬(rows.all (fun x => !missingIdRow x) = true) := by
      intro hall
      have := List.all_eq_true.mp hall r (List.get?_mem hr)
      rw [hmiss] at this
      cases this
    simp only [generateDeterministicIds, if_neg hnotall]
    rw [List.get?_eq_getElem?, List.getElem?_map, List.getElem?_enum,
      ← List.get?_eq_getElem?, hr]
    simp only [Option.map_some']
    rw [Option.some_inj]
    simp only [hmiss, if_true]
    rfl
  · intro hnotmiss
    by_cases hall : rows.all (fun x => !missingIdRow x) = true
    · simp only [generateDeterministicIds, if_pos hall]
      exact hr
    · simp only [generateDeterministicIds, if_neg hall]
      rw [List.get?_eq_getElem?, List.getElem?_map, List.getElem?_enum,
        ← List.get?_eq_getElem?, hr]
      simp [hnotmiss]
  · intro c hc
    exact mem_sha1HexChars_isHex ((List.take_sublist 16 _).mem hc)
  · intro rows2 src2 countries2 h1 h2 h3
    rw [h1, h2, h3]

/-- Witness for C3: a one-row frame with a blank id receives the generated
identifier of its payload, and a row with a native id is untouched. -/
theorem c3_deterministic_ids_witness :
    (generateDeterministicIds
        [{ emptyCanonicalRow with project_name := some "Bridge", year := some 2019 }]
        "data/raw/x.xlsx" [some "Indonesia"]).get? 0 =
      some { emptyCanonicalRow with
        project_name := some "Bridge", year := some 2019,
        project_id := some ("gen_" ++ String.mk ((sha1HexChars
          ("data/raw/x.xlsx" ++ "|" ++ "Bridge" ++ "|" ++ yearFillStr (some 2019) ++ "|"
            ++ "Indonesia")).take 16)) } ∧
    (generateDeterministicIds
        [{ emptyCanonicalRow with project_id := some "AD-77" }]
        "data/raw/x.xlsx" [some "Indonesia"]).get? 0 =
      some { emptyCanonicalRow with project_id := some "AD-77" } := by
  constructor
  · exact (c3_deterministic_ids
      [{ emptyCanonicalRow with project_name := some "Bridge", year := some 2019 }]
      "data/raw/x.xlsx" [some "Indonesia"] 0
      { emptyCanonicalRow with project_name := some "Bridge", year := some 2019 }
      (by decide)).1 (by decide)
  · exact (c3_deterministic_ids
      [{ emptyCanonicalRow with project_id := some "AD-77" }]
      "data/raw/x.xlsx" [some "Indonesia"] 0
      { emptyCanonicalRow with project_id := some "AD-77" }
      (by decide)).2.1 (by decide)

/-! ## C1: the persisted canonical table -/

set_option maxRecDepth 40000 in
/-- SHA-1 embedding check against the FIPS-180 test vector. -/
theorem sha1_test_vector_abc :
    sha1HexString "abc" = "a9993e364706816aba3e25717850c26c9cd0d89d" := by decide

set_option maxRecDepth 40000 in
/-- SHA-1 embedding check against the empty-message test vector. -/
theorem sha1_test_vector_empty :
    sha1HexString "" = "da39a3ee5e6b4b0d3255bfef95601890afd80709" := by decide

theorem mem_dedupByKeyAux {α κ : Type} [DecidableEq κ] (key : α → κ)
    (l : List α) (seen : List κ) {a : α} (h : a ∈ dedupByKeyAux key seen l) :
    a ∈ l := by
  induction l generalizing seen with
  | nil => cases h
  | cons x xs ih =>
    simp only [dedupByKeyAux] at h
    split at h
    · exact List.mem_cons_of_mem x (ih _ h)
    · rcases List.mem_cons.mp h with heq | hmem
      · rw [heq]; exact List.mem_cons_self _ _
      · exact List.mem_cons_of_mem x (ih _ hmem)

theorem dedupByKeyAux_spec {α κ : Type} [DecidableEq κ] (key : α → κ)
    (l : List α) (seen : List κ) :
    ((dedupByKeyAux key seen l).map key).Nodup ∧
      ∀ a ∈ dedupByKeyAux key seen l, key a ∉ seen := by
  induction l generalizing seen with
  | nil => exact ⟨List.nodup_nil, fun a h => absurd h (List.not_mem_nil a)⟩
  | cons x xs ih =>
    by_cases hs : (seen.any (fun k => decide (k = key x))) = true
    · simp only [dedupByKeyAux, hs, if_true]
      exact ih seen
    · simp only [dedupByKeyAux, hs, if_false, Bool.false_eq_true]
      have hnotin : key x ∉ seen := by
        intro hmem
        apply hs
        rw [List.any_eq_true]
        exact ⟨key x, hmem, by simp⟩
      obtain ⟨ihnodup, ihseen⟩ := ih (key x :: seen)
      refine ⟨?_, ?_⟩
      · rw [List.map_cons, List.nodup_cons]
        refine ⟨?_, ihnodup⟩
        intro hmem
        rcases List.mem_map.mp hmem with ⟨a, ha, hka⟩
        exact ihseen a ha (by rw [hka]; exact List.mem_cons_self _ _)
      · intro a ha
        rcases List.mem_cons.mp ha with rfl | hmem
        · exact hnotin
        · intro hseenmem
          exact ihseen a hmem (List.mem_cons_of_mem _ hseenmem)

theorem find?_filter_of_imp {α : Type} (l : List α) (p q : α → Bool)
    (himp : ∀ a, q a = true → p a = true) :
    (l.filter p).find? q = l.find? q := by
  induction l with
  | nil => rfl
  | cons x xs ih =>
    by_cases hp : p x = true
    · rw [List.filter_cons_of_pos hp]
      by_cases hq : q x = true
      · rw [List.find?_cons_of_pos _ hq, List.find?_cons_of_pos _ hq]
      · rw [List.find?_cons_of_neg _ (by simp [hq]),
          List.find?_cons_of_neg _ (by simp [hq])]
        exact ih
    · rw [List.filter_cons_of_neg (by simp [hp])]
      have hq : ¬(q x = true) := fun hq => hp (himp x hq)
      rw [List.find?_cons_of_neg _ (by simp [hq])]
      exact ih

theorem dedupByKeyAux_find? {α κ : Type} [DecidableEq κ] (key : α → κ) (k : κ)
    (l : List α) (seen : List κ) (hseen : ∀ s ∈ seen, s ≠ k) :
    (dedupByKeyAux key seen l).find? (fun a => decide (key a = k)) =
      l.find? (fun a => decide (key a = k)) := by
  induction l generalizing seen with
  | nil => rfl
  | cons x xs ih =>
    by_cases hs : (seen.any (fun s => decide (s = key x))) = true
    · simp only [dedupByKeyAux, hs, if_true]
      have hxk : key x ≠ k := by
        rcases List.any_eq_true.mp hs with ⟨s, hsmem, hsx⟩
        have : s = key x := of_decide_eq_true hsx
        rw [← this]
        exact hseen s hsmem
      rw [List.find?_cons_of_neg _ (by simp [hxk])]
      exact ih seen hseen
    · simp only [dedupByKeyAux, hs, if_false, Bool.false_eq_true]
      by_cases hxk : key x = k
      · rw [List.find?_cons_of_pos _ (by simp [hxk]),
          List.find?_cons_of_pos _ (by simp [hxk])]
      · rw [List.find?_cons_of_neg _ (by simp [hxk]),
          List.find?_cons_of_neg _ (by simp [hxk])]
        refine ih (key x :: seen) ?_
        intro s hsmem
        rcases List.mem_cons.mp hsmem with heq | hmem
        · rw [heq]; exact hxk
        · exact hseen s hmem

theorem finalizeSchemaCan_rows (rows : List CanonicalRow) (src : String)
    (w : List ETLWarning) :
    (finalizeSchemaCan rows src w).1 = rows.map canonFinalRow := by
  unfold finalizeSchemaCan
  by_cases hany : ((rows.map finalizeCanRow).any financeInvalid) = true
  · simp only [hany, if_true, List.map_map]
    rfl
  · simp only [hany, if_false, Bool.false_eq_true]
    have hall : ∀ r ∈ rows.map finalizeCanRow, financeInvalid r = false := by
      intro r hr
      by_contra hne
      apply hany
      rw [List.any_eq_true]
      exact ⟨r, hr, by revert hne; cases financeInvalid r <;> simp⟩
    have : rows.map canonFinalRow = (rows.map finalizeCanRow).map nullInvalidFinance := by
      rw [List.map_map]; rfl
    rw [this]
    conv_lhs => rw [show rows.map finalizeCanRow =
      (rows.map finalizeCanRow).map id from (List.map_id _).symm]
    apply List.map_congr_left
    intro a ha
    simp only [id]
    unfold nullInvalidFinance
    rw [hall a ha]
    simp

theorem canonFinalRow_finance (r : CanonicalRow) :
    (canonFinalRow r).finance_type = some "DF" ∨
      (canonFinalRow r).finance_type = some "FDI" ∨
      (canonFinalRow r).finance_type = none := by
  unfold canonFinalRow nullInvalidFinance
  by_cases hinv : financeInvalid (finalizeCanRow r) = true
  · rw [if_pos hinv]
    exact Or.inr (Or.inr rfl)
  · rw [if_neg hinv]
    have h : ((finalizeCanRow r).finance_type == some "DF"
        || (finalizeCanRow r).finance_type == some "FDI") = true := by
      unfold financeInvalid at hinv
      revert hinv
      cases ((finalizeCanRow r).finance_type == some "DF"
        || (finalizeCanRow r).finance_type == some "FDI") <;> simp
    rcases Bool.or_eq_true_iff.mp h with h1 | h1
    · exact Or.inl (eq_of_beq h1)
    · exact Or.inr (Or.inl (eq_of_beq h1))

/-- C1: after the terminal block of `run_etl`, every persisted row's
`finance_type` is exactly `"DF"` or `"FDI"`; the `(project_id,
finance_type)` keys are pairwise distinct; and for every valid key, the row
kept is the first row carrying that key in concatenated source order (the
finalized frame), so first occurrence wins under deduplication. -/
theorem c1_canonical_invariants (projects : List CanonicalRow) (w : List ETLWarning) :
    (∀ r ∈ (canonicalFinalize projects w).1,
      r.finance_type = some "DF" ∨ r.finance_type = some "FDI") ∧
    ((canonicalFinalize projects w).1.map canonKey).Nodup ∧
    (∀ pid ft, ft = "DF" ∨ ft = "FDI" →
      (canonicalFinalize projects w).1.find?
          (fun r => decide (canonKey r = (pid, some ft))) =
        (projects.map canonFinalRow).find?
          (fun r => decide (canonKey r = (pid, some ft)))) := by
  by_cases hempty : projects.isEmpty = true
  · have hnil : projects = [] := List.isEmpty_iff.mp hempty
    subst hnil
    simp only [canonicalFinalize, List.isEmpty_nil, if_true]
    exact ⟨fun r hr => absurd hr (List.not_mem_nil r), List.nodup_nil,
      fun pid ft _ => rfl⟩
  · have hrows :
        (canonicalFinalize projects w).1 =
          dedupByKey canonKey
            ((projects.map canonFinalRow).filter (fun r => r.finance_type.isSome)) := by
      simp only [canonicalFinalize, hempty, if_false, Bool.false_eq_true]
      rw [finalizeSchemaCan_rows]
    refine ⟨?_, ?_, ?_⟩
    · intro r hr
      rw [hrows] at hr
      have hmem := mem_dedupByKeyAux canonKey _ _ hr
      have hsome : r.finance_type.isSome = true := (List.mem_filter.mp hmem).2
      have hmem2 : r ∈ projects.map canonFinalRow := (List.mem_filter.mp hmem).1
      rcases List.mem_map.mp hmem2 with ⟨x, _, hx⟩
      rcases canonFinalRow_finance x with h | h | h
      · exact Or.inl (by rw [← hx]; exact h)
      · exact Or.inr (by rw [← hx]; exact h)
      · rw [← hx] at hsome
        rw [h] at hsome
        cases hsome
    · rw [hrows]
      exact (dedupByKeyAux_spec canonKey _ []).1
    · intro pid ft hft
      rw [hrows]
      unfold dedupByKey
      rw [dedupByKeyAux_find? canonKey (pid, some ft) _ []
        (fun s hs => absurd hs (List.not_mem_nil s))]
      apply find?_filter_of_imp
      intro a ha
      have : canonKey a = (pid, some ft) := of_decide_eq_true ha
      have : a.finance_type = some ft := congrArg Prod.snd this
      rw [this]
      rfl

/-- Witness for C1: two rows sharing key `("X", "DF")` (first wins), one row
with an invalid `finance_type` (dropped), one `FDI` row (kept). -/
theorem c1_canonical_invariants_witness :
    (canonicalFinalize
        [{ emptyCanonicalRow with project_id := some "X", finance_type := some "DF", sector := some "A" },
         { emptyCanonicalRow with project_id := some "X", finance_type := some "DF", sector := some "B" },
         { emptyCanonicalRow with project_id := some "Y", finance_type := some "??" },
         { emptyCanonicalRow with project_id := some "Z", finance_type := some "FDI" }]
        []).1.find? (fun r => decide (canonKey r = (some "X", some "DF"))) =
      ([{ emptyCanonicalRow with project_id := some "X", finance_type := some "DF", sector := some "A" },
        { emptyCanonicalRow with project_id := some "X", finance_type := some "DF", sector := some "B" },
        { emptyCanonicalRow with project_id := some "Y", finance_type := some "??" },
        { emptyCanonicalRow with project_id := some "Z", finance_type := some "FDI" }].map canonFinalRow).find?
        (fun r => decide (canonKey r = (some "X", some "DF"))) ∧
    (canonicalFinalize
        [{ emptyCanonicalRow with project_id := some "X", finance_type := some "DF", sector := some "A" },
         { emptyCanonicalRow with project_id := some "X", finance_type := some "DF", sector := some "B" },
         { emptyCanonicalRow with project_id := some "Y", finance_type := some "??" },
         { emptyCanonicalRow with project_id := some "Z", finance_type := some "FDI" }]
        []).1.map (fun r => (r.project_id, r.finance_type, r.sector)) =
      [(some "X", some "DF", some "A"), (some "Z", some "FDI", none)] := by
  constructor
  · exact (c1_canonical_invariants
      [{ emptyCanonicalRow with project_id := some "X", finance_type := some "DF", sector := some "A" },
       { emptyCanonicalRow with project_id := some "X", finance_type := some "DF", sector := some "B" },
       { emptyCanonicalRow with project_id := some "Y", finance_type := some "??" },
       { emptyCanonicalRow with project_id := some "Z", finance_type := some "FDI" }]
      []).2.2 (some "X") "DF" (Or.inl rfl)
  · decide

/-! ## C8: the combined date parser -/

theorem daysInMonth_le_31 (y m : Int) : daysInMonth y m ≤ 31 := by
  unfold daysInMonth
  split_ifs <;> norm_num

theorem daysInMonth_pos (y m : Int) : 1 ≤ daysInMonth y m := by
  unfold daysInMonth
  split_ifs <;> norm_num

theorem parseIsoDate_valid (s : String) (d : EtlDate) (h : parseIsoDate s = some d) :
    1 ≤ d.month ∧ d.month ≤ 12 ∧ 1 ≤ d.day ∧ d.day ≤ daysInMonth d.year d.month := by
  unfold parseIsoDate at h
  dsimp only at h
  split at h
  · cases h
  · split at h
    · cases h
    · split at h
      · cases h
      · split at h
        · split at h
          · rename_i hguard
            simp only [Bool.and_eq_true, decide_eq_true_eq] at hguard
            obtain ⟨⟨⟨⟨_, h1m⟩, hm12⟩, h1d⟩, hdm⟩ := hguard
            cases h
            dsimp only
            exact ⟨by exact_mod_cast h1m, by exact_mod_cast hm12, by exact_mod_cast h1d, hdm⟩
          · cases h
        · cases h

/-- C8: `parse_date_any` tries calendar-date parsing of the trimmed text
first and falls back to spreadsheet-serial parsing (days since 1899-12-30)
exactly when the text parse fails; the numeric value `44000` parses to
`2020-06-18`, the calendar date it represents under the 1899-12-30 epoch;
the text `"2021-01-15"` parses to the same kind of value via the text path;
and every output is a day-precision `EtlDate` value or null — the embedding
types the result as `Option EtlDate`, never a string — with text-path
outputs always valid calendar dates. -/
theorem c8_parse_date_any :
    (∀ s d, parseIsoDate (strTrim s) = some d → parseDateAny s = some d) ∧
    (∀ s, parseIsoDate (strTrim s) = none →
      parseDateAny s = parseExcelSerial (strTrim s)) ∧
    parseDateAny "44000" = some { year := 2020, month := 6, day := 18 } ∧
    (parseExcelSerial "44000" = some (civilFromDays (excelEpochOffset + 44000)) ∧
      civilFromDays (excelEpochOffset + 44000) = { year := 2020, month := 6, day := 18 }) ∧
    (parseDateAny "2021-01-15" = some { year := 2021, month := 1, day := 15 } ∧
      parseIsoDate (strTrim "2021-01-15") = some { year := 2021, month := 1, day := 15 }) ∧
    (∀ s, parseDateAny s = none ∨ ∃ d, parseDateAny s = some d) ∧
    (∀ s d, parseIsoDate s = some d →
      1 ≤ d.month ∧ d.month ≤ 12 ∧ 1 ≤ d.day ∧ d.day ≤ 31) := by
  refine ⟨?_, ?_, by decide, ⟨by decide, by decide⟩, ⟨by decide, by decide⟩, ?_, ?_⟩
  · intro s d h
    unfold parseDateAny
    by_cases ht : strTrim s = ""
    · rw [ht] at h
      cases h
    · simp only [ht, if_false]
      rw [h]
      rfl
  · intro s h
    unfold parseDateAny
    by_cases ht : strTrim s = ""
    · simp only [ht, if_true]
      rfl
    · simp only [ht, if_false]
      rw [h]
      rfl
  · intro s
    cases h : parseDateAny s with
    | none => exact Or.inl rfl
    | some d => exact Or.inr ⟨d, rfl⟩
  · intro s d h
    have hv := parseIsoDate_valid s d h
    exact ⟨hv.1, hv.2.1, hv.2.2.1, le_trans hv.2.2.2 (daysInMonth_le_31 _ _)⟩

/-- Witness for C8: the text-priority and fallback conjuncts at concrete
inputs — `"2021-01-15"` through the text path, `"44000"` through the serial
path. -/
theorem c8_parse_date_any_witness :
    parseDateAny "2021-01-15" = some { year := 2021, month := 1, day := 15 } ∧
    parseDateAny "44000" = parseExcelSerial (strTrim "44000") := by
  constructor
  · exact c8_parse_date_any.1 "2021-01-15" { year := 2021, month := 1, day := 15 } (by decide)
  · exact c8_parse_date_any.2.1 "44000" (by decide)

/-! ## C10: raw-file discovery -/

theorem mem_insertSortedDedup {x a : String} {l : List String} :
    x ∈ insertSortedDedup a l ↔ x = a ∨ x ∈ l := by
  induction l with
  | nil => simp [insertSortedDedup]
  | cons y ys ih =>
    unfold insertSortedDedup
    rcases lt_trichotomy a y with h | h | h
    · rw [if_pos h]
      simp
    · rw [if_neg (by rw [h]; exact lt_irrefl y), if_neg (by rw [h]; exact lt_irrefl y)]
      subst h
      simp only [List.mem_cons]
      constructor
      · intro hx; exact Or.inr hx
      · rintro (rfl | hx)
        · exact Or.inl rfl
        · exact hx
    · rw [if_neg (lt_asymm h), if_pos h]
      simp only [List.mem_cons, ih]
      constructor
      · rintro (rfl | hx | hx)
        · exact Or.inr (Or.inl rfl)
        · exact Or.inl hx
        · exact Or.inr (Or.inr hx)
      · rintro (hx | rfl | hx)
        · exact Or.inr (Or.inl hx)
        · exact Or.inl rfl
        · exact Or.inr (Or.inr hx)

theorem pairwise_insertSortedDedup {a : String} {l : List String}
    (h : List.Pairwise (· < ·) l) :
    List.Pairwise (· < ·) (insertSortedDedup a l) := by
  induction l with
  | nil => simp [insertSortedDedup]
  | cons y ys ih =>
    rcases List.pairwise_cons.mp h with ⟨hy, hys⟩
    unfold insertSortedDedup
    rcases lt_trichotomy a y with hc | hc | hc
    · rw [if_pos hc]
      refine List.pairwise_cons.mpr ⟨?_, h⟩
      intro z hz
      rcases List.mem_cons.mp hz with rfl | hz2
      · exact hc
      · exact lt_trans hc (hy z hz2)
    · rw [if_neg (by rw [hc]; exact lt_irrefl y), if_neg (by rw [hc]; exact lt_irrefl y)]
      exact h
    · rw [if_neg (lt_asymm hc), if_pos hc]
      refine List.pairwise_cons.mpr ⟨?_, ih hys⟩
      intro z hz
      rcases mem_insertSortedDedup.mp hz with rfl | hz2
      · exact hc
      · exact hy z hz2

theorem sortedDedup_pairwise (l : List String) :
    List.Pairwise (· < ·) (sortedDedup l) := by
  induction l with
  | nil => exact List.Pairwise.nil
  | cons x xs ih => exact pairwise_insertSortedDedup ih

theorem mem_sortedDedup {x : String} {l : List String} :
    x ∈ sortedDedup l ↔ x ∈ l := by
  induction l with
  | nil => simp [sortedDedup]
  | cons y ys ih =>
    show x ∈ insertSortedDedup y (sortedDedup ys) ↔ _
    rw [mem_insertSortedDedup, ih]
    simp

theorem sorted_eq_of_mem_iff :
    ∀ (l1 l2 : List String), List.Pairwise (· < ·) l1 → List.Pairwise (· < ·) l2 →
      (∀ x, x ∈ l1 ↔ x ∈ l2) → l1 = l2 := by
  intro l1
  induction l1 with
  | nil =>
    intro l2 _ _ hmem
    cases l2 with
    | nil => rfl
    | cons y ys => exact absurd ((hmem y).mpr (List.mem_cons_self y ys)) (List.not_mem_nil y)
  | cons x xs ih =>
    intro l2 h1 h2 hmem
    cases l2 with
    | nil => exact absurd ((hmem x).mp (List.mem_cons_self x xs)) (List.not_mem_nil x)
    | cons y ys =>
      rcases List.pairwise_cons.mp h1 with ⟨hx, hxs⟩
      rcases List.pairwise_cons.mp h2 with ⟨hy, hys⟩
      have hxy : x = y := by
        rcases List.mem_cons.mp ((hmem x).mp (List.mem_cons_self x xs)) with h | h
        · exact h
        · rcases List.mem_cons.mp ((hmem y).mpr (List.mem_cons_self y ys)) with h3 | h3
          · exact h3.symm
          · exact absurd (lt_trans (hy x h) (hx y h3)) (lt_irrefl y)
      subst hxy
      have htails : ∀ z, z ∈ xs ↔ z ∈ ys := by
        intro z
        constructor
        · intro hz
          rcases List.mem_cons.mp ((hmem z).mp (List.mem_cons_of_mem x hz)) with h3 | h3
          · exact absurd (h3 ▸ hx z hz) (lt_irrefl x)
          · exact h3
        · intro hz
          rcases List.mem_cons.mp ((hmem z).mpr (List.mem_cons_of_mem x hz)) with h3 | h3
          · exact absurd (h3 ▸ hy z hz) (lt_irrefl x)
          · exact h3
      rw [ih ys hxs hys htails]

theorem mem_discoverRawFiles {d : RawDir} {p : String} (hroot : d.rootExists = true) :
    p ∈ discoverRawFiles d ↔
      hasSupportedExt p = true ∧ (p, true) ∈ d.entries := by
  unfold discoverRawFiles
  rw [hroot]
  simp only [Bool.not_true, Bool.false_eq_true, if_false, mem_sortedDedup,
    List.mem_map, List.mem_filter]
  constructor
  · rintro ⟨en, ⟨⟨hen, hext⟩, hfile⟩, rfl⟩
    refine ⟨hext, ?_⟩
    have : en = (en.1, true) := by
      rcases en with ⟨p1, b1⟩
      simp only at hfile
      rw [hfile]
    rw [← this]
    exact hen
  · rintro ⟨hext, hen⟩
    exact ⟨(p, true), ⟨⟨hen, hext⟩, rfl⟩, rfl⟩

/-- C10: raw-file discovery returns a strictly ascending (hence
duplicate-free) list; every returned path is a regular file with a supported
extension and every such file is returned; the result is empty when the
root directory does not exist; and the output is invariant under
permutations of the filesystem's enumeration order. -/
theorem c10_discover_raw_files (d : RawDir) :
    (d.rootExists = false → discoverRawFiles d = []) ∧
    List.Pairwise (· < ·) (discoverRawFiles d) ∧
    (discoverRawFiles d).Nodup ∧
    (∀ p ∈ discoverRawFiles d, hasSupportedExt p = true ∧ (p, true) ∈ d.entries) ∧
    (∀ p, (p, true) ∈ d.entries → hasSupportedExt p = true → d.rootExists = true →
      p ∈ discoverRawFiles d) ∧
    (∀ d2 : RawDir, d2.rootExists = d.rootExists → d2.entries.Perm d.entries →
      discoverRawFiles d2 = discoverRawFiles d) := by
  have hpair : List.Pairwise (· < ·) (discoverRawFiles d) := by
    unfold discoverRawFiles
    split
    · exact List.Pairwise.nil
    · exact sortedDedup_pairwise _
  refine ⟨?_, hpair, ?_, ?_, ?_, ?_⟩
  · intro h
    unfold discoverRawFiles
    rw [h]
    rfl
  · exact hpair.imp ne_of_lt
  · intro p hp
    cases hroot : d.rootExists with
    | false =>
      unfold discoverRawFiles at hp
      rw [hroot] at hp
      cases hp
    | true => exact (mem_discoverRawFiles hroot).mp hp
  · intro p hen hext hroot
    exact (mem_discoverRawFiles hroot).mpr ⟨hext, hen⟩
  · intro d2 hroot hperm
    cases hroot2 : d.rootExists with
    | false =>
      unfold discoverRawFiles
      rw [hroot2] at hroot
      rw [hroot, hroot2]
      rfl
    | true =>
      rw [hroot2] at hroot
      have hpair2 : List.Pairwise (· < ·) (discoverRawFiles d2) := by
        unfold discoverRawFiles
        split
        · exact List.Pairwise.nil
        · exact sortedDedup_pairwise _
      refine sorted_eq_of_mem_iff _ _ hpair2 hpair ?_
      intro x
      rw [mem_discoverRawFiles hroot, mem_discoverRawFiles hroot2]
      have hmem : ((x, true) ∈ d2.entries) ↔ ((x, true) ∈ d.entries) := hperm.mem_iff
      tauto

/-- Witness for C10: a concrete listing with an unsupported extension, a
directory entry, and shuffled enumeration order. -/
theorem c10_discover_raw_files_witness :
    discoverRawFiles { rootExists := false, entries := [("a.csv", true)] } = [] ∧
    ("b.csv" ∈ discoverRawFiles { rootExists := true, entries := [("b.csv", true), ("a.xlsx", true), ("c.txt", true), ("d.xls", false)] }) ∧
    discoverRawFiles { rootExists := true, entries := [("a.xlsx", true), ("b.csv", true), ("c.txt", true), ("d.xls", false)] } =
      discoverRawFiles { rootExists := true, entries := [("b.csv", true), ("a.xlsx", true), ("c.txt", true), ("d.xls", false)] } := by
  refine ⟨?_, ?_, ?_⟩
  · exact (c10_discover_raw_files { rootExists := false, entries := [("a.csv", true)] }).1 rfl
  · exact (c10_discover_raw_files { rootExists := true, entries := [("b.csv", true), ("a.xlsx", true), ("c.txt", true), ("d.xls", false)] }).2.2.2.2.1
      "b.csv" (by decide) (by decide) rfl
  · exact (c10_discover_raw_files { rootExists := true, entries := [("b.csv", true), ("a.xlsx", true), ("c.txt", true), ("d.xls", false)] }).2.2.2.2.2
      { rootExists := true, entries := [("a.xlsx", true), ("b.csv", true), ("c.txt", true), ("d.xls", false)] }
      rfl (List.Perm.swap ("b.csv", true) ("a.xlsx", true) _)

/-! ## C9: the orchestrator -/

theorem enforceIndonesiaFilter_warnExt (f : RawFrame) (src : String)
    (w : List ETLWarning) :
    ∃ d, (enforceIndonesiaFilter f src w).2.2.2 = w ++ d := by
  unfold enforceIndonesiaFilter
  by_cases hc : (indonesiaMask f).2.2.isEmpty = true
  · rcases hm : indonesiaMask f with ⟨mask, country, ccols⟩
    rw [hm] at hc
    simp only [hm, hc, if_true]
    exact ⟨_, rfl⟩
  · rcases hm : indonesiaMask f with ⟨mask, country, ccols⟩
    rw [hm] at hc
    simp only [hm, hc, if_false, Bool.false_eq_true]
    exact ⟨[], (List.append_nil w).symm⟩

theorem finalizeSchemaStd_warnExt (rows : List StdRow) (src : String)
    (w : List ETLWarning) (out : List CanonicalRow × List ETLWarning)
    (h : finalizeSchemaStd rows src w = Except.ok out) :
    ∃ d, out.2 = w ++ d := by
  unfold finalizeSchemaStd at h
  dsimp only at h
  split at h
  · split at h
    · cases h
      exact ⟨_, rfl⟩
    · cases h
      exact ⟨[], (List.append_nil w).symm⟩
  · exact Except.noConfusion h

theorem finalizeSchemaCan_warnExt (rows : List CanonicalRow) (src : String)
    (w : List ETLWarning) :
    ∃ d, (finalizeSchemaCan rows src w).2 = w ++ d := by
  unfold finalizeSchemaCan
  by_cases hc : ((rows.map finalizeCanRow).any financeInvalid) = true
  · simp only [hc, if_true]
    exact ⟨_, rfl⟩
  · simp only [hc, if_false, Bool.false_eq_true]
    exact ⟨[], (List.append_nil w).symm⟩

theorem finalizeStd_snd_warnExt (rows : List StdRow) (src : String)
    (w d0 : List ETLWarning) (out : List CanonicalRow × List ETLWarning)
    (h : finalizeSchemaStd rows src (w ++ d0) = Except.ok out) :
    ∃ d, out.2 = w ++ d := by
  obtain ⟨d1, h1⟩ := finalizeSchemaStd_warnExt rows src (w ++ d0) out h
  exact ⟨d0 ++ d1, by rw [h1, List.append_assoc]⟩

theorem standardizeAiddata_warnExt (f : RawFrame) (src : String)
    (w : List ETLWarning) (out : List CanonicalRow × Nat × Nat × List ETLWarning)
    (h : standardizeAiddata f src w = Except.ok out) :
    ∃ d, out.2.2.2 = w ++ d := by
  obtain ⟨d0, hd0⟩ := enforceIndonesiaFilter_warnExt f src w
  unfold standardizeAiddata at h
  split at h
  rename_i kept country exc w1 he
  rw [he] at hd0
  dsimp only at hd0
  subst hd0
  dsimp only at h
  split at h
  · exact Except.noConfusion h
  · rename_i finalized w2 hfin
    cases h
    exact finalizeStd_snd_warnExt _ src w d0 _ hfin

theorem standardizeCgitTracker_warnExt (f : RawFrame) (src : String)
    (w : List ETLWarning) (out : List CanonicalRow × Nat × Nat × List ETLWarning)
    (h : standardizeCgitTracker f src w = Except.ok out) :
    ∃ d, out.2.2.2 = w ++ d := by
  obtain ⟨d0, hd0⟩ := enforceIndonesiaFilter_warnExt f src w
  unfold standardizeCgitTracker at h
  split at h
  rename_i kept country exc w1 he
  rw [he] at hd0
  dsimp only at hd0
  subst hd0
  dsimp only at h
  split at h
  · exact Except.noConfusion h
  · rename_i finalized w2 hfin
    cases h
    exact finalizeStd_snd_warnExt _ src w d0 _ hfin

theorem standardizeCgitIndonesia_warnExt (f : RawFrame) (src : String)
    (w : List ETLWarning) (out : List CanonicalRow × Nat × Nat × List ETLWarning)
    (h : standardizeCgitIndonesia f src w = Except.ok out) :
    ∃ d, out.2.2.2 = w ++ d := by
  obtain ⟨d0, hd0⟩ := enforceIndonesiaFilter_warnExt f src w
  unfold standardizeCgitIndonesia at h
  split at h
  rename_i kept country exc w1 he
  rw [he] at hd0
  dsimp only at hd0
  subst hd0
  dsimp only at h
  split at h
  · exact Except.noConfusion h
  · rename_i finalized w2 hfin
    cases h
    exact finalizeStd_snd_warnExt _ src w d0 _ hfin

theorem optionalEnrichmentFrame_warnExt (f : RawFrame) (src : String)
    (w : List ETLWarning) (out : List CanonicalRow × Nat × Nat × List ETLWarning)
    (h : optionalEnrichmentFrame f src w = Except.ok out) :
    ∃ d, out.2.2.2 = w ++ d := by
  obtain ⟨d0, hd0⟩ := enforceIndonesiaFilter_warnExt f src w
  unfold optionalEnrichmentFrame at h
  split at h
  rename_i kept country exc w1 he
  rw [he] at hd0
  dsimp only at hd0
  subst hd0
  dsimp only at h
  split at h
  · exact Except.noConfusion h
  · rename_i finalized w2 hfin
    cases h
    exact finalizeStd_snd_warnExt _ src w d0 _ hfin

theorem optionalEnrichmentFrame_err_warnExt (f : RawFrame) (src : String)
    (w : List ETLWarning) (e : String × List ETLWarning)
    (h : optionalEnrichmentFrame f src w = Except.error e) :
    ∃ d, e.2 = w ++ d := by
  obtain ⟨d0, hd0⟩ := enforceIndonesiaFilter_warnExt f src w
  unfold optionalEnrichmentFrame at h
  split at h
  rename_i kept country exc w1 he
  rw [he] at hd0
  dsimp only at hd0
  subst hd0
  dsimp only at h
  split at h
  · cases h
    exact ⟨d0, rfl⟩
  · exact Except.noConfusion h

theorem standardizeDispatch_warnExt (name : String) (f : RawFrame) (path : String)
    (w : List ETLWarning) (out : List CanonicalRow × Nat × Nat × List ETLWarning)
    (h : standardizeDispatch name f path w = Except.ok out) :
    ∃ d, out.2.2.2 = w ++ d := by
  unfold standardizeDispatch at h
  split_ifs at h
  · exact standardizeAiddata_warnExt f path w out h
  · exact standardizeCgitTracker_warnExt f path w out h
  · exact standardizeCgitIndonesia_warnExt f path w out h
  · cases h
    exact ⟨[], (List.append_nil w).symm⟩

theorem finalizeCan_snd_warnExt (rows : List CanonicalRow) (src : String)
    (w d0 : List ETLWarning) :
    ∃ d, (finalizeSchemaCan rows src (w ++ d0)).2 = w ++ d := by
  obtain ⟨d1, h⟩ := finalizeSchemaCan_warnExt rows src (w ++ d0)
  exact ⟨d0 ++ d1, by rw [h, List.append_assoc]⟩

theorem processPrimarySource_shape (rawDir : String) (env : List FileEntry)
    (st : EtlState) (src : String × String) (st2 : EtlState)
    (hok : processPrimarySource rawDir env st src = Except.ok st2) :
    ∃ stat wsd frames,
      st2.warnings = st.warnings ++ wsd ∧
      st2.sourceLoads = st.sourceLoads ++ [stat] ∧
      st2.primaryFrames = st.primaryFrames ++ frames ∧
      stat.role = "primary" ∧
      (filesByName env src.1 = none →
        stat.parser_used = "missing" ∧ stat.rows_in_source = 0 ∧ stat.rows_loaded = 0 ∧
        ∃ wmsg ∈ wsd, wmsg.warning_type = "missing_primary_source" ∧
          wmsg.source_file = rawDir ++ "/" ++ src.1) ∧
      (∀ ent e, filesByName env src.1 = some ent → ent.result = Except.error e →
        stat.parser_used = "read_error" ∧ stat.rows_loaded = 0 ∧
        ∃ wmsg ∈ wsd, wmsg.warning_type = "read_error" ∧ wmsg.source_file = ent.path) := by
  cases hfile : filesByName env src.1 with
  | none =>
    unfold processPrimarySource at hok
    rw [hfile] at hok
    dsimp only at hok
    cases hok
    refine ⟨_, _, [], rfl, rfl, (List.append_nil _).symm, rfl, ?_, ?_⟩
    · intro _
      refine ⟨rfl, rfl, rfl, ?_⟩
      exact ⟨_, List.mem_singleton.mpr rfl, rfl, rfl⟩
    · intro ent e hsome
      cases hsome
  | some entry =>
    cases hres : entry.result with
    | error e =>
      unfold processPrimarySource at hok
      rw [hfile] at hok
      dsimp only at hok
      rw [hres] at hok
      dsimp only at hok
      cases hok
      refine ⟨_, _, [], rfl, rfl, (List.append_nil _).symm, rfl, ?_, ?_⟩
      · intro hnone
        cases hnone
      · intro ent e2 hsome herr
        have hent : entry = ent := by
          injection hsome with h
        subst hent
        refine ⟨rfl, rfl, ?_⟩
        exact ⟨_, List.mem_singleton.mpr rfl, rfl, rfl⟩
    | ok pr =>
      rcases pr with ⟨frame, parser⟩
      unfold processPrimarySource at hok
      rw [hfile] at hok
      dsimp only at hok
      rw [hres] at hok
      dsimp only at hok
      split at hok
      · exact Except.noConfusion hok
      · rename_i std0 rowsIn rowsExc wD hD
        obtain ⟨d1, hd1⟩ := standardizeDispatch_warnExt src.1 frame entry.path st.warnings _ hD
        dsimp only at hd1
        subst hd1
        cases hok
        obtain ⟨d2, hd2⟩ := finalizeCan_snd_warnExt
          (std0.map (fun r => { r with finance_type := some src.2 })) entry.path st.warnings d1
        refine ⟨_, d2, _, hd2, rfl, rfl, rfl, ?_, ?_⟩
        · intro hnone
          cases hnone
        · intro ent e2 hsome herr
          have hent : entry = ent := by
            injection hsome with h
          subst hent
          rw [hres] at herr
          cases herr

theorem processEnrichment_shape (env : List FileEntry) (st : EtlState) :
    ∃ wsd ldd,
      (processEnrichment env st).2.warnings = st.warnings ++ wsd ∧
      (processEnrichment env st).2.sourceLoads = st.sourceLoads ++ ldd ∧
      (processEnrichment env st).2.primaryFrames = st.primaryFrames := by
  cases hfile : filesByName env ENRICHMENT_FILENAME with
  | none =>
    unfold processEnrichment
    rw [hfile]
    dsimp only
    exact ⟨[], [], (List.append_nil _).symm, (List.append_nil _).symm, rfl⟩
  | some entry =>
    cases hres : entry.result with
    | ok pr =>
      rcases pr with ⟨frame, parser⟩
      unfold processEnrichment
      rw [hfile]
      dsimp only
      rw [hres]
      dsimp only
      cases hopt : optionalEnrichmentFrame frame entry.path st.warnings with
      | error e2 =>
        obtain ⟨d1, hd1⟩ := optionalEnrichmentFrame_err_warnExt frame entry.path st.warnings e2 hopt
        dsimp only
        rw [hd1]
        exact ⟨d1 ++ _, _, List.append_assoc _ _ _, rfl, rfl⟩
      | ok quad =>
        rcases quad with ⟨enr, rowsIn, rowsExc, w1⟩
        obtain ⟨d1, hd1⟩ := optionalEnrichmentFrame_warnExt frame entry.path st.warnings _ hopt
        dsimp only at hd1
        dsimp only
        exact ⟨d1, _, hd1, rfl, rfl⟩
    | error e =>
      unfold processEnrichment
      rw [hfile]
      dsimp only
      rw [hres]
      dsimp only
      exact ⟨_, _, rfl, rfl, rfl⟩

theorem processExcludedSource_shape (env : List FileEntry) (st : EtlState)
    (name : String) :
    ∃ wsd ldd,
      (processExcludedSource env st name).warnings = st.warnings ++ wsd ∧
      (processExcludedSource env st name).sourceLoads = st.sourceLoads ++ ldd ∧
      (processExcludedSource env st name).primaryFrames = st.primaryFrames := by
  cases hfile : filesByName env name with
  | none =>
    unfold processExcludedSource
    rw [hfile]
    dsimp only
    exact ⟨[], [], (List.append_nil _).symm, (List.append_nil _).symm, rfl⟩
  | some entry =>
    cases hres : entry.result with
    | ok pr =>
      rcases pr with ⟨frame, parser⟩
      unfold processExcludedSource
      rw [hfile]
      dsimp only
      rw [hres]
      dsimp only
      exact ⟨[], _, (List.append_nil _).symm, rfl, rfl⟩
    | error e =>
      unfold processExcludedSource
      rw [hfile]
      dsimp only
      rw [hres]
      dsimp only
      exact ⟨_, _, rfl, rfl, rfl⟩

theorem excludedFold_shape (env : List FileEntry) (names : List String)
    (st : EtlState) :
    ∃ wsd ldd,
      (names.foldl (processExcludedSource env) st).warnings = st.warnings ++ wsd ∧
      (names.foldl (processExcludedSource env) st).sourceLoads = st.sourceLoads ++ ldd ∧
      (names.foldl (processExcludedSource env) st).primaryFrames = st.primaryFrames := by
  induction names generalizing st with
  | nil => exact ⟨[], [], (List.append_nil _).symm, (List.append_nil _).symm, rfl⟩
  | cons n rest ih =>
    obtain ⟨w1, l1, hw1, hl1, hf1⟩ := processExcludedSource_shape env st n
    obtain ⟨w2, l2, hw2, hl2, hf2⟩ := ih (processExcludedSource env st n)
    rw [List.foldl_cons]
    refine ⟨w1 ++ w2, l1 ++ l2, ?_, ?_, ?_⟩
    · rw [hw2, hw1, List.append_assoc]
    · rw [hl2, hl1, List.append_assoc]
    · rw [hf2, hf1]

theorem recordTouchedRows_prefix (t : Nat) (pre post : List SourceLoadStat)
    (hpre : ∀ s ∈ pre,
      (basenameOf s.source_file == ENRICHMENT_FILENAME && s.role == "enrichment") = false) :
    recordTouchedRows t (pre ++ post) = pre ++ recordTouchedRows t post := by
  induction pre with
  | nil => rfl
  | cons s rest ih =>
    have hs := hpre s (List.mem_cons_self s rest)
    simp only [List.cons_append, recordTouchedRows, hs, Bool.false_eq_true, if_false,
      List.append_eq]
    rw [ih (fun s2 hs2 => hpre s2 (List.mem_cons_of_mem s hs2))]

theorem canonicalFinalize_warnExt (projects : List CanonicalRow)
    (w : List ETLWarning) :
    ∃ d, (canonicalFinalize projects w).2 = w ++ d := by
  unfold canonicalFinalize
  by_cases hemp : projects.isEmpty = true
  · simp only [hemp, if_true]
    exact ⟨[], (List.append_nil _).symm⟩
  · simp only [hemp, if_false, Bool.false_eq_true]
    obtain ⟨d1, hd1⟩ := finalizeSchemaCan_warnExt projects "canonical_dataset" w
    rcases hfin : finalizeSchemaCan projects "canonical_dataset" w with ⟨rows2, w1⟩
    rw [hfin] at hd1
    dsimp only at hd1
    dsimp only
    split
    · exact ⟨d1 ++ [missingFinanceWarning], by rw [hd1, List.append_assoc]⟩
    · exact ⟨d1, hd1⟩

theorem primaryLoopState_inv (rawDir : String) (env : List FileEntry) (st1 : EtlState)
    (h : primaryLoopState rawDir env = Except.ok st1) :
    ∃ b1 b2,
      processPrimarySource rawDir env (initialEtlState rawDir env)
        (AIDDATA_FILENAME, "DF") = Except.ok b1 ∧
      processPrimarySource rawDir env b1 (CGIT_TRACKER_FILENAME, "FDI") = Except.ok b2 ∧
      processPrimarySource rawDir env b2 (CGIT_INDONESIA_FILENAME, "FDI") = Except.ok st1 := by
  unfold primaryLoopState PRIMARY_SOURCES at h
  simp only [primaryLoop] at h
  split at h
  · exact Except.noConfusion h
  · rename_i b1 h1
    split at h
    · exact Except.noConfusion h
    · rename_i b2 h2
      split at h
      · exact Except.noConfusion h
      · rename_i b3 h3
        cases h
        exact ⟨b1, b2, h1, h2, h3⟩

theorem runEtl_ok_inv (rawDir : String) (env : List FileEntry) (out : EtlOutput)
    (h : runEtl rawDir env = Except.ok out) :
    ∃ st1, primaryLoopState rawDir env = Except.ok st1 ∧
      out = mergeAndPersist env (processEnrichment env st1).1
        (EXCLUDED_SOURCES_SORTED.foldl (processExcludedSource env)
          (processEnrichment env st1).2) := by
  unfold runEtl at h
  split at h
  · exact Except.noConfusion h
  · rename_i st1 h1
    dsimp only at h
    cases h
    exact ⟨st1, h1, rfl⟩

theorem mergeAndPersist_shape (env : List FileEntry)
    (opt : Option (List CanonicalRow)) (st3 : EtlState)
    (pre restL : List SourceLoadStat) (hloads : st3.sourceLoads = pre ++ restL)
    (hpre : ∀ s ∈ pre,
      (basenameOf s.source_file == ENRICHMENT_FILENAME && s.role == "enrichment") = false) :
    (∃ rest2, (mergeAndPersist env opt st3).report.source_loads = pre ++ rest2) ∧
    (∃ d, (mergeAndPersist env opt st3).report.warnings = st3.warnings ++ d) ∧
    (mergeAndPersist env opt st3).persistedCsv = (mergeAndPersist env opt st3).projects ∧
    (mergeAndPersist env opt st3).persistedReport = (mergeAndPersist env opt st3).report ∧
    (mergeAndPersist env opt st3).report.row_count =
      (mergeAndPersist env opt st3).projects.length ∧
    (mergeAndPersist env opt st3).report.warning_count =
      (mergeAndPersist env opt st3).report.warnings.length ∧
    (mergeAndPersist env opt st3).report.raw_file_count = env.length := by
  cases opt with
  | none =>
    unfold mergeAndPersist
    dsimp only
    rcases hfin : canonicalFinalize st3.primaryFrames.flatten st3.warnings with ⟨p2, wF⟩
    obtain ⟨d, hd⟩ := canonicalFinalize_warnExt st3.primaryFrames.flatten st3.warnings
    rw [hfin] at hd
    dsimp only at hd
    dsimp only
    unfold buildQualityReport
    refine ⟨⟨restL, hloads⟩, ⟨d, hd⟩, ?_, ?_, ?_, ?_, ?_⟩ <;> trivial
  | some enrichment =>
    by_cases hemp : st3.primaryFrames.flatten.isEmpty = true
    · unfold mergeAndPersist
      dsimp only
      simp only [hemp, if_true]
      rcases hfin : canonicalFinalize st3.primaryFrames.flatten st3.warnings with ⟨p2, wF⟩
      obtain ⟨d, hd⟩ := canonicalFinalize_warnExt st3.primaryFrames.flatten st3.warnings
      rw [hfin] at hd
      dsimp only at hd
      dsimp only
      unfold buildQualityReport
      refine ⟨⟨restL, hloads⟩, ⟨d, hd⟩, ?_, ?_, ?_, ?_, ?_⟩ <;> trivial
    · unfold mergeAndPersist
      dsimp only
      simp only [hemp, if_false, Bool.false_eq_true]
      rcases happ : applyOptionalEnrichment st3.primaryFrames.flatten enrichment with
        ⟨merged, touched⟩
      dsimp only
      rw [hloads, recordTouchedRows_prefix touched pre restL hpre]
      rcases hfin : canonicalFinalize merged st3.warnings with ⟨p2, wF⟩
      obtain ⟨d, hd⟩ := canonicalFinalize_warnExt merged st3.warnings
      rw [hfin] at hd
      dsimp only at hd
      dsimp only
      unfold buildQualityReport
      refine ⟨⟨recordTouchedRows touched restL, rfl⟩, ⟨d, hd⟩, ?_, ?_, ?_, ?_, ?_⟩ <;> trivial

theorem except_toOption_ok {ε α : Type} {x : Except ε α} {a : α}
    (h : exceptToOption x = some a) : x = Except.ok a := by
  cases x with
  | error e => exact Option.noConfusion h
  | ok b => exact congrArg Except.ok (Option.some.inj h)

theorem isYearCastFailure_err {x : Except String EtlOutput}
    (h : isYearCastFailure x = true) : x = Except.error yearCastError := by
  cases x with
  | error e => exact congrArg Except.error (eq_of_beq h)
  | ok o => exact Bool.noConfusion h

/-- C9 (amended): whenever `run_etl` completes — that is, whenever the
uncaught `TypeError` of the primary year cast does not fire — each
configured primary source contributes exactly one load statistic, in
configuration order, at the head of the report's statistics list: an absent
source yields the zero-row `missing` statistic plus a
`missing_primary_source` warning and processing continues with the next
source; a failed read is caught as a `read_error` statistic plus a
`read_error` warning; and the terminal state persists both the (possibly
empty) canonical table and the quality report, whose counts agree with the
persisted data. -/
theorem c9_orchestrator (rawDir : String) (env : List FileEntry) (out : EtlOutput)
    (hrun : runEtl rawDir env = Except.ok out) :
    (∃ s1 s2 s3 rest,
      out.report.source_loads = s1 :: s2 :: s3 :: rest ∧
      PrimaryStatSpec rawDir env out.report.warnings AIDDATA_FILENAME s1 ∧
      PrimaryStatSpec rawDir env out.report.warnings CGIT_TRACKER_FILENAME s2 ∧
      PrimaryStatSpec rawDir env out.report.warnings CGIT_INDONESIA_FILENAME s3) ∧
    out.persistedCsv = out.projects ∧
    out.persistedReport = out.report ∧
    out.report.row_count = out.projects.length ∧
    out.report.warning_count = out.report.warnings.length ∧
    out.report.raw_file_count = env.length := by
  obtain ⟨st1, hst1, hout⟩ := runEtl_ok_inv rawDir env out hrun
  obtain ⟨b1, b2, h1, h2, h3⟩ := primaryLoopState_inv rawDir env st1 hst1
  obtain ⟨t1, ws1, f1, hw1, hl1, hf1, hrole1, hmiss1, herr1⟩ :=
    processPrimarySource_shape rawDir env (initialEtlState rawDir env)
      (AIDDATA_FILENAME, "DF") b1 h1
  obtain ⟨t2, ws2, f2, hw2, hl2, hf2, hrole2, hmiss2, herr2⟩ :=
    processPrimarySource_shape rawDir env b1 (CGIT_TRACKER_FILENAME, "FDI") b2 h2
  obtain ⟨t3, ws3, f3, hw3, hl3, hf3, hrole3, hmiss3, herr3⟩ :=
    processPrimarySource_shape rawDir env b2 (CGIT_INDONESIA_FILENAME, "FDI") st1 h3
  have hinitL : (initialEtlState rawDir env).sourceLoads = [] := rfl
  have hloadsB3 : st1.sourceLoads = [t1, t2, t3] ++ [] := by
    rw [hl3, hl2, hl1, hinitL]
    rfl
  obtain ⟨wsE, ldE, hwE, hlE, hfE⟩ := processEnrichment_shape env st1
  obtain ⟨wsX, ldX, hwX, hlX, hfX⟩ :=
    excludedFold_shape env EXCLUDED_SOURCES_SORTED (processEnrichment env st1).2
  have hloadsST3 :
      (EXCLUDED_SOURCES_SORTED.foldl (processExcludedSource env)
        (processEnrichment env st1).2).sourceLoads = [t1, t2, t3] ++ (ldE ++ ldX) := by
    rw [hlX, hlE, hloadsB3]
    simp [List.append_assoc]
  have hpre : ∀ s ∈ [t1, t2, t3],
      (basenameOf s.source_file == ENRICHMENT_FILENAME && s.role == "enrichment") = false := by
    intro s hs
    have hrole : s.role = "primary" := by
      rcases List.mem_cons.mp hs with h | h2
      · rw [h]; exact hrole1
      · rcases List.mem_cons.mp h2 with h | h3
        · rw [h]; exact hrole2
        · rcases List.mem_cons.mp h3 with h | h4
          · rw [h]; exact hrole3
          · cases h4
    rw [hrole]
    simp
  obtain ⟨⟨rest2, hrest2⟩, ⟨dW, hdW⟩, hcsv, hrep, hrow, hwc, hrawc⟩ :=
    mergeAndPersist_shape env (processEnrichment env st1).1
      (EXCLUDED_SOURCES_SORTED.foldl (processExcludedSource env)
        (processEnrichment env st1).2)
      [t1, t2, t3] (ldE ++ ldX) hloadsST3 hpre
  subst hout
  have hwarnMem : ∀ x : ETLWarning, x ∈ ws1 ∨ x ∈ ws2 ∨ x ∈ ws3 →
      x ∈ (mergeAndPersist env (processEnrichment env st1).1
        (EXCLUDED_SOURCES_SORTED.foldl (processExcludedSource env)
          (processEnrichment env st1).2)).report.warnings := by
    intro x hx
    have hxB3 : x ∈ st1.warnings := by
      rw [hw3, hw2, hw1]
      rcases hx with h | h | h
      · exact List.mem_append_left _ (List.mem_append_left _ (List.mem_append_right _ h))
      · exact List.mem_append_left _ (List.mem_append_right _ h)
      · exact List.mem_append_right _ h
    have hxST3 : x ∈ (EXCLUDED_SOURCES_SORTED.foldl (processExcludedSource env)
        (processEnrichment env st1).2).warnings := by
      rw [hwX, hwE]
      exact List.mem_append_left _ (List.mem_append_left _ hxB3)
    rw [hdW]
    exact List.mem_append_left _ hxST3
  refine ⟨⟨t1, t2, t3, rest2, ?_, ?_, ?_, ?_⟩, hcsv, hrep, hrow, hwc, hrawc⟩
  · rw [hrest2]
    rfl
  · refine ⟨hrole1, ?_, ?_⟩
    · intro hnone
      obtain ⟨hp, hri, hrl, wmsg, hmem, hty, hsf⟩ := hmiss1 hnone
      exact ⟨hp, hri, hrl, wmsg, hwarnMem wmsg (Or.inl hmem), hty, hsf⟩
    · intro ent e hsome herr
      obtain ⟨hp, hrl, wmsg, hmem, hty, hsf⟩ := herr1 ent e hsome herr
      exact ⟨hp, hrl, wmsg, hwarnMem wmsg (Or.inl hmem), hty, hsf⟩
  · refine ⟨hrole2, ?_, ?_⟩
    · intro hnone
      obtain ⟨hp, hri, hrl, wmsg, hmem, hty, hsf⟩ := hmiss2 hnone
      exact ⟨hp, hri, hrl, wmsg, hwarnMem wmsg (Or.inr (Or.inl hmem)), hty, hsf⟩
    · intro ent e hsome herr
      obtain ⟨hp, hrl, wmsg, hmem, hty, hsf⟩ := herr2 ent e hsome herr
      exact ⟨hp, hrl, wmsg, hwarnMem wmsg (Or.inr (Or.inl hmem)), hty, hsf⟩
  · refine ⟨hrole3, ?_, ?_⟩
    · intro hnone
      obtain ⟨hp, hri, hrl, wmsg, hmem, hty, hsf⟩ := hmiss3 hnone
      exact ⟨hp, hri, hrl, wmsg, hwarnMem wmsg (Or.inr (Or.inr hmem)), hty, hsf⟩
    · intro ent e hsome herr
      obtain ⟨hp, hrl, wmsg, hmem, hty, hsf⟩ := herr3 ent e hsome herr
      exact ⟨hp, hrl, wmsg, hwarnMem wmsg (Or.inr (Or.inr hmem)), hty, hsf⟩

set_option maxRecDepth 100000 in
/-- C9 counterexample: the frozen claim says the orchestrator always writes
both outputs and that no per-file condition raises out of it; but on an
environment whose AidData file reads successfully with a kept Indonesia row
carrying the non-integral `Commitment Year` value `2019.5`, the year cast
`astype("Int64")` inside `_finalize_schema` raises a `TypeError` outside
the read-only `try/except` of the primary loop, so the run aborts and
neither output is written. -/
theorem c9_counterexample :
    runEtl "data/raw" c9BadEnv = Except.error yearCastError ∧
    ∀ out : EtlOutput, runEtl "data/raw" c9BadEnv ≠ Except.ok out := by
  have h0 : isYearCastFailure (runEtl "data/raw" c9BadEnv) = true := by
    with_unfolding_all decide
  have h := isYearCastFailure_err h0
  exact ⟨h, fun out hout => Except.noConfusion (h.symm.trans hout)⟩

/-- Witness for C9: the empty raw-data environment completes; there the
report lists the three primary sources first, the first (AidData) statistic
is a `missing` primary statistic, the persisted CSV equals the project
list, and the raw-file count is zero. -/
theorem c9_orchestrator_witness :
    ∃ out : EtlOutput, runEtl "data/raw" ([] : List FileEntry) = Except.ok out ∧
      out.persistedCsv = out.projects ∧
      out.report.raw_file_count = 0 ∧
      ∃ s1 s2 s3 rest, out.report.source_loads = s1 :: s2 :: s3 :: rest ∧
        s1.parser_used = "missing" ∧ s1.role = "primary" := by
  have hsome : (exceptToOption (runEtl "data/raw" ([] : List FileEntry))).isSome = true := by
    decide
  obtain ⟨out, hout⟩ := Option.isSome_iff_exists.mp hsome
  have hrun : runEtl "data/raw" ([] : List FileEntry) = Except.ok out :=
    except_toOption_ok hout
  obtain ⟨⟨s1, s2, s3, rest, hsl, hp1, hp2x, hp3x⟩, hcsv, hrep, hrow, hwc, hraw⟩ :=
    c9_orchestrator "data/raw" ([] : List FileEntry) out hrun
  obtain ⟨hrole, hmiss, herr⟩ := hp1
  have hnone : filesByName ([] : List FileEntry) AIDDATA_FILENAME = none := rfl
  obtain ⟨hpu, hri, hrl, hw⟩ := hmiss hnone
  exact ⟨out, hrun, hcsv, hraw, s1, s2, s3, rest, hsl, hpu, hrole⟩
